import Mathlib

/-!
Verification of the PolicyStack marketplace scripts
(`scripts/build-registry.py` and `scripts/validate-template.py`).

The two scripts read a tree of template directories, each holding a
`metadata.yaml` descriptor parsed with `yaml.safe_load`.  Parsed YAML
documents are modelled by the inductive type `Yaml` below; mappings are
modelled with string keys (every key the scripts look up is a string
literal, and every concrete document considered here is string-keyed).
Boolean and floating point scalars are not needed by any claim and are
subsumed by the integer constructor.

Python-level dynamic behaviour is modelled explicitly:
* operations that can raise (`.get` on a non-dict, `len` of an unsized
  value, `in` on a non-container, subscripting, iteration, hashing an
  unhashable key, comparing incomparable values) return `Option`,
  `none` meaning the operation raises;
* the scripts catch exceptions at documented points; state mutated
  before the raise is kept, exactly as in the source.
-/

inductive Yaml where
  | null : Yaml
  | int : Int → Yaml
  | str : String → Yaml
  | list : List Yaml → Yaml
  | map : List (String × Yaml) → Yaml
deriving Repr

mutual

def yamlDecEq : (a b : Yaml) → Decidable (a = b)
  | Yaml.null, Yaml.null => isTrue rfl
  | Yaml.int x, Yaml.int y =>
    if h : x = y then isTrue (by rw [h]) else isFalse (by simp [h])
  | Yaml.str x, Yaml.str y =>
    if h : x = y then isTrue (by rw [h]) else isFalse (by simp [h])
  | Yaml.list xs, Yaml.list ys =>
    match yamlListDecEq xs ys with
    | isTrue h => isTrue (by rw [h])
    | isFalse h => isFalse (by simp [h])
  | Yaml.map xs, Yaml.map ys =>
    match yamlKVDecEq xs ys with
    | isTrue h => isTrue (by rw [h])
    | isFalse h => isFalse (by simp [h])
  | Yaml.null, Yaml.int _ => isFalse (by simp)
  | Yaml.null, Yaml.str _ => isFalse (by simp)
  | Yaml.null, Yaml.list _ => isFalse (by simp)
  | Yaml.null, Yaml.map _ => isFalse (by simp)
  | Yaml.int _, Yaml.null => isFalse (by simp)
  | Yaml.int _, Yaml.str _ => isFalse (by simp)
  | Yaml.int _, Yaml.list _ => isFalse (by simp)
  | Yaml.int _, Yaml.map _ => isFalse (by simp)
  | Yaml.str _, Yaml.null => isFalse (by simp)
  | Yaml.str _, Yaml.int _ => isFalse (by simp)
  | Yaml.str _, Yaml.list _ => isFalse (by simp)
  | Yaml.str _, Yaml.map _ => isFalse (by simp)
  | Yaml.list _, Yaml.null => isFalse (by simp)
  | Yaml.list _, Yaml.int _ => isFalse (by simp)
  | Yaml.list _, Yaml.str _ => isFalse (by simp)
  | Yaml.list _, Yaml.map _ => isFalse (by simp)
  | Yaml.map _, Yaml.null => isFalse (by simp)
  | Yaml.map _, Yaml.int _ => isFalse (by simp)
  | Yaml.map _, Yaml.str _ => isFalse (by simp)
  | Yaml.map _, Yaml.list _ => isFalse (by simp)

def yamlListDecEq : (xs ys : List Yaml) → Decidable (xs = ys)
  | [], [] => isTrue rfl
  | [], _ :: _ => isFalse (by simp)
  | _ :: _, [] => isFalse (by simp)
  | x :: xs, y :: ys =>
    match yamlDecEq x y with
    | isFalse h => isFalse (by simp [h])
    | isTrue h =>
      match yamlListDecEq xs ys with
      | isTrue h2 => isTrue (by rw [h, h2])
      | isFalse h2 => isFalse (by simp [h2])

def yamlKVDecEq : (xs ys : List (String × Yaml)) → Decidable (xs = ys)
  | [], [] => isTrue rfl
  | [], _ :: _ => isFalse (by simp)
  | _ :: _, [] => isFalse (by simp)
  | (k, v) :: xs, (k2, v2) :: ys =>
    if hk : k = k2 then
      match yamlDecEq v v2 with
      | isFalse h => isFalse (by simp [h])
      | isTrue h =>
        match yamlKVDecEq xs ys with
        | isTrue h2 => isTrue (by rw [hk, h, h2])
        | isFalse h2 => isFalse (by simp [h2])
    else isFalse (by simp [hk])

end

instance : DecidableEq Yaml := yamlDecEq

/-- Association lookup on a parsed mapping (first binding wins, as in a
Python dict built from a YAML document, whose keys are unique). -/
def alookup (kvs : List (String × Yaml)) (k : String) : Option Yaml :=
  match kvs with
  | [] => none
  | kv :: rest => if kv.1 = k then some kv.2 else alookup rest k

def Yaml.isMap : Yaml → Bool
  | Yaml.map _ => true
  | _ => false

def Yaml.isStr : Yaml → Bool
  | Yaml.str _ => true
  | _ => false

/-- Python truthiness of a parsed value (`if x:`). -/
def pyTruthy : Yaml → Bool
  | Yaml.null => false
  | Yaml.int n => !(n == 0)
  | Yaml.str s => !s.data.isEmpty
  | Yaml.list xs => !xs.isEmpty
  | Yaml.map kvs => !kvs.isEmpty

/-- Python hashability: scalars are hashable, lists and dicts are not. -/
def pyHashable : Yaml → Bool
  | Yaml.null => true
  | Yaml.int _ => true
  | Yaml.str _ => true
  | Yaml.list _ => false
  | Yaml.map _ => false

/-- Python `len`: `none` when the value has no length (raises `TypeError`). -/
def pyLen : Yaml → Option Nat
  | Yaml.str s => some s.data.length
  | Yaml.list xs => some xs.length
  | Yaml.map kvs => some kvs.length
  | _ => none

/-- Python iteration (`for x in v`): strings yield their characters,
dicts yield their keys; `none` when the value is not iterable. -/
def pyIter : Yaml → Option (List Yaml)
  | Yaml.str s => some (s.data.map (fun c => Yaml.str c.toString))
  | Yaml.list xs => some xs
  | Yaml.map kvs => some (kvs.map (fun kv => Yaml.str kv.1))
  | _ => none

/-- `d.get(k)` on a parsed value: raises (`none`) unless the value is a
dict; a missing key yields Python `None`. -/
def dictGet (m : Yaml) (k : String) : Option Yaml :=
  match m with
  | Yaml.map kvs => some ((alookup kvs k).getD Yaml.null)
  | _ => none

/-- `d.get(k, default)` on a parsed value. -/
def dictGetD (m : Yaml) (k : String) (d : Yaml) : Option Yaml :=
  match m with
  | Yaml.map kvs => some ((alookup kvs k).getD d)
  | _ => none

/-- `v[k]` with a string key: defined for dicts with the key present;
every other case raises.  (All uses in the scripts are guarded by a
preceding `k in v` test, so the `KeyError` case never fires there.) -/
def pySubscript (m : Yaml) (k : String) : Option Yaml :=
  match m with
  | Yaml.map kvs => alookup kvs k
  | _ => none

/-- Substring test, for Python `needle in hay` on strings. -/
def strContains (hay needle : String) : Bool :=
  (List.range (hay.data.length + 1)).any (fun i => needle.data.isPrefixOf (hay.data.drop i))

/-- Lexicographic code-point comparison of character lists: the order
Python uses to compare strings. -/
def charListLe : List Char → List Char → Bool
  | [], _ => true
  | _ :: _, [] => false
  | a :: as, b :: bs =>
    if a.toNat = b.toNat then charListLe as bs else decide (a.toNat < b.toNat)

/-- Python `s.startswith(pre)`. -/
def strStartsWith (s pre : String) : Bool :=
  pre.data.isPrefixOf s.data

/-- Python `k in v` for a string literal `k`: key test on dicts,
substring test on strings, element test on lists; `none` (raises
`TypeError`) on `None` and numbers. -/
def pyContainsStr (v : Yaml) (k : String) : Option Bool :=
  match v with
  | Yaml.map kvs => some (kvs.any (fun kv => kv.1 = k))
  | Yaml.str s => some (strContains s k)
  | Yaml.list xs => some (xs.any (fun x => x == Yaml.str k))
  | _ => none

/-- Python `x in v` for a parsed needle `x`: on dicts the needle must be
hashable; on strings the needle must itself be a string; `none` when the
test raises. -/
def pyContainsY (v : Yaml) (x : Yaml) : Option Bool :=
  match v with
  | Yaml.map kvs =>
    if pyHashable x then some (kvs.any (fun kv => Yaml.str kv.1 == x)) else none
  | Yaml.str s =>
    match x with
    | Yaml.str t => some (strContains s t)
    | _ => none
  | Yaml.list xs => some (xs.any (fun y => y == x))
  | _ => none

mutual
/-- Python `repr` of a parsed value (scalars exact; the container quote
character is U+0027). -/
def pyRepr : Yaml → String
  | Yaml.null => "None"
  | Yaml.int n => toString n
  | Yaml.str s => "\x27" ++ s ++ "\x27"
  | Yaml.list xs => "[" ++ pyReprList xs ++ "]"
  | Yaml.map kvs => "\x7b" ++ pyReprKVs kvs ++ "\x7d"

def pyReprList : List Yaml → String
  | [] => ""
  | [x] => pyRepr x
  | x :: y :: xs => pyRepr x ++ ", " ++ pyReprList (y :: xs)

def pyReprKVs : List (String × Yaml) → String
  | [] => ""
  | [kv] => "\x27" ++ kv.1 ++ "\x27: " ++ pyRepr kv.2
  | kv :: kv2 :: xs => "\x27" ++ kv.1 ++ "\x27: " ++ pyRepr kv.2 ++ ", " ++ pyReprKVs (kv2 :: xs)
end

/-- Python `str` of a parsed value, as interpolated by an f-string. -/
def pyStr : Yaml → String
  | Yaml.str s => s
  | y => pyRepr y

/-- Comparability for Python `<` during `sort`: integers compare with
integers and strings with strings; all other pairs raise `TypeError`. -/
def pyComparable : Yaml → Yaml → Bool
  | Yaml.int _, Yaml.int _ => true
  | Yaml.str _, Yaml.str _ => true
  | _, _ => false

/-- Python `<=` on comparable values (`false` on incomparable pairs;
only ever used under a comparability check). -/
def pyLeB : Yaml → Yaml → Bool
  | Yaml.int a, Yaml.int b => decide (a ≤ b)
  | Yaml.str a, Yaml.str b => charListLe a.data b.data
  | _, _ => false

/-- Every pair of distinct positions is comparable: the condition under
which a Python `sort` of the list completes instead of raising.
(Comparability classes partition a list, so two incomparable elements
force an incomparable adjacent pair, which `sort` always compares.) -/
def allComp : List Yaml → Bool
  | [] => true
  | x :: xs => xs.all (fun y => pyComparable x y) && allComp xs

/-- Stable insertion step: `x` goes in front of the first element it is
`le`-below-or-equal, i.e. after any earlier equal elements. -/
def insOrd (le : α → α → Bool) (x : α) : List α → List α
  | [] => [x]
  | y :: ys => if le x y then x :: y :: ys else y :: insOrd le x ys

/-- Stable insertion sort (same sorted order as Python `sort`). -/
def isort (le : α → α → Bool) : List α → List α
  | [] => []
  | x :: xs => insOrd le x (isort le xs)

/-!
## Registry Builder (`scripts/build-registry.py`)

`RegistryBuilder.__init__` creates the registry value below (`version`
constant `"1.0.0"`, `generated` from `datetime.now()`, empty template
list, category and tag indexes, and stats).  The `authors` stats field
is a Python set; it is modelled as the insertion-ordered duplicate-free
list of its elements (only its sorted materialisation is observable).
Category and tag indexes are Python dicts in insertion order, keyed by
parsed values (keys must be hashable); buckets are lists of the
`metadata.get("name")` values.
-/

structure Entry where
  name : Yaml
  displayName : Yaml
  description : Yaml
  author : Yaml
  categories : Yaml
  tags : Yaml
  version : Yaml
  versions : Yaml
  features : Nat
  requirements : Yaml
  complexity : Yaml
  path : String
deriving DecidableEq, Repr

structure Registry where
  version : String
  generated : String
  templates : List Entry
  categories : List (Yaml × List Yaml)
  tags : List (Yaml × List Yaml)
  total_templates : Nat
  total_versions : Nat
  authors : List Yaml
deriving DecidableEq, Repr

def initRegistry (now : String) : Registry :=
  { version := "1.0.0", generated := now, templates := [], categories := [],
    tags := [], total_templates := 0, total_versions := 0, authors := [] }

/-- Dict bucket update: `if k not in d: d[k] = []` then `d[k].append(v)`.
A fresh key is appended at the end (Python dict insertion order). -/
def addToBucket (buckets : List (Yaml × List Yaml)) (k : Yaml) (v : Yaml) :
    List (Yaml × List Yaml) :=
  if buckets.any (fun kv => kv.1 = k) then
    buckets.map (fun kv => if kv.1 = k then (kv.1, kv.2 ++ [v]) else kv)
  else buckets ++ [(k, [v])]

/-- Python set `add` (membership-tested insertion, insertion order kept). -/
def setAdd (s : List Yaml) (x : Yaml) : List Yaml :=
  if x ∈ s then s else s ++ [x]

/-- The `template_entry` dict literal of `process_template`, evaluated in
source order.  It raises (`none`) iff the parsed document is not a dict
(the first `metadata.get` raises `AttributeError`) or a present
`features` value has no `len`. -/
def mkEntry (m : Yaml) : Option Entry := do
  let name ← dictGet m "name"
  let displayName ← dictGet m "displayName"
  let description ← dictGet m "description"
  let author ← dictGet m "author"
  let categories ← dictGet m "categories"
  let tags ← dictGetD m "tags" (Yaml.list [])
  let version ← dictGet m "version"
  let versions ← dictGet m "versions"
  let featuresVal ← dictGetD m "features" (Yaml.list [])
  let features ← pyLen featuresVal
  let requirements ← dictGet m "requirements"
  let complexity ← dictGet m "complexity"
  some { name := name, displayName := displayName, description := description,
         author := author, categories := categories, tags := tags,
         version := version, versions := versions, features := features,
         requirements := requirements, complexity := complexity,
         path := "templates/" ++ pyStr name }

/-- Category index update of `process_template`: `none` when the step
raises (non-dict `categories` value, or unhashable truthy primary). -/
def categoriesStep (reg : Registry) (m : Yaml) (name : Yaml) : Option Registry := do
  let cats ← dictGetD m "categories" (Yaml.map [])
  let primary ← dictGet cats "primary"
  if pyTruthy primary then
    if pyHashable primary then
      some { reg with categories := addToBucket reg.categories primary name }
    else none
  else some reg

/-- The `for tag in metadata.get("tags", [])` loop; an unhashable tag
raises mid-loop, keeping the buckets added so far (`true` = raised). -/
def tagsLoop (reg : Registry) (name : Yaml) : List Yaml → Registry × Bool
  | [] => (reg, false)
  | t :: ts =>
    if pyHashable t then
      tagsLoop { reg with tags := addToBucket reg.tags t name } name ts
    else (reg, true)

def tagsStep (reg : Registry) (m : Yaml) (name : Yaml) : Registry × Bool :=
  match dictGetD m "tags" (Yaml.list []) with
  | none => (reg, true)
  | some tv =>
    match pyIter tv with
    | none => (reg, true)
    | some ts => tagsLoop reg name ts

/-- Stats update: `total_templates += 1` always happens; the
`len(metadata.get("versions", {}))` addition raises on an unsized
`versions` value, after the increment. -/
def statsStep (reg : Registry) (m : Yaml) : Registry × Bool :=
  let reg1 := { reg with total_templates := reg.total_templates + 1 }
  match (dictGetD m "versions" (Yaml.map [])).bind pyLen with
  | none => (reg1, true)
  | some n => ({ reg1 with total_versions := reg1.total_versions + n }, false)

/-- Author stats update: `metadata.get("author", {}).get("name")` raises
on a non-dict `author` value; a truthy unhashable name raises in
`set.add`. -/
def authorStep (reg : Registry) (m : Yaml) : Registry × Bool :=
  match (dictGetD m "author" (Yaml.map [])).bind (fun a => dictGet a "name") with
  | none => (reg, true)
  | some an =>
    if pyTruthy an then
      if pyHashable an then ({ reg with authors := setAdd reg.authors an }, false)
      else (reg, true)
    else (reg, false)

/-- `RegistryBuilder.process_template` on a parsed document (`none` =
`yaml.safe_load` raised).  The whole body is wrapped in
`try/except Exception`: on a raise the error is logged and processing of
this template stops, but registry mutations already made are kept.
Returns the new registry and whether an error was caught. -/
def processTemplate (reg : Registry) (doc : Option Yaml) : Registry × Bool :=
  match doc with
  | none => (reg, true)
  | some m =>
    match mkEntry m with
    | none => (reg, true)
    | some e =>
      let reg1 := { reg with templates := reg.templates ++ [e] }
      match categoriesStep reg1 m e.name with
      | none => (reg1, true)
      | some reg2 =>
        match tagsStep reg2 m e.name with
        | (reg3, true) => (reg3, true)
        | (reg3, false) =>
          match statsStep reg3 m with
          | (reg4, true) => (reg4, true)
          | (reg4, false) => authorStep reg4 m

/-!
A template tree is the list of immediate subdirectories of the templates
root, in `iterdir` order (file entries are dropped by the `is_dir`
filter and not modelled).  `metadata : none` means no `metadata.yaml`
exists; `some none` means the file exists but `yaml.safe_load` raises;
`some (some m)` is a parsed document.
-/

structure TDir where
  dname : String
  metadata : Option (Option Yaml)
deriving DecidableEq, Repr

/-- One iteration of `scan_templates`: hidden directories (leading dot)
are skipped, a missing descriptor is logged and skipped. -/
def scanStep (reg : Registry) (d : TDir) : Registry :=
  if strStartsWith d.dname "." then reg
  else
    match d.metadata with
    | none => reg
    | some doc => (processTemplate reg doc).1

def scanTemplates (reg : Registry) (tree : List TDir) : Registry :=
  tree.foldl scanStep reg

/-- Sort a bucket list with Python `sort`: raises (`none`) when some
pair of elements is incomparable. -/
def sortYL (xs : List Yaml) : Option (List Yaml) :=
  if allComp xs then some (isort pyLeB xs) else none

def sortBuckets : List (Yaml × List Yaml) → Option (List (Yaml × List Yaml))
  | [] => some []
  | kv :: bs => do
    let l ← sortYL kv.2
    let rest ← sortBuckets bs
    some ((kv.1, l) :: rest)

def entLe (a b : Entry) : Bool := pyLeB a.name b.name

/-- `RegistryBuilder.build_index`: sorts `templates` by name, each
category and tag bucket, and materialises the author set as a sorted
list.  `none` when any of the Python sorts raises `TypeError`. -/
def buildIndex (reg : Registry) : Option Registry :=
  if allComp (reg.templates.map (fun e => e.name)) then
    match sortBuckets reg.categories with
    | none => none
    | some cats =>
      match sortBuckets reg.tags with
      | none => none
      | some tags =>
        match sortYL reg.authors with
        | none => none
        | some auth =>
          some { reg with templates := isort entLe reg.templates,
                          categories := cats, tags := tags, authors := auth }
  else none

/-- One category section of `generate_readme_snippet` succeeds iff
`category.title()` applies (the key is a string) and `next(...)` finds a
template entry for every name in the bucket. -/
def snippetCatOk (reg : Registry) (kv : Yaml × List Yaml) : Bool :=
  kv.1.isStr && kv.2.all (fun n => (reg.templates.find? (fun t => t.name = n)).isSome)

/-- `RegistryBuilder.generate_readme_snippet`, modelled for
success/failure only (the produced text goes to stdout and is not
inspected by any claim).  It raises iff `sorted(categories.items())`
compares incomparable keys, a key has no `.title()`, or a bucket name
has no template entry; the popular-tags part compares only lengths and
cannot raise. -/
def genSnippet (reg : Registry) : Option Unit :=
  if allComp (reg.categories.map (fun kv => kv.1)) && reg.categories.all (snippetCatOk reg) then
    some () else none

inductive RunResult where
  | missingRoot : RunResult
  | crashed : RunResult
  | ok : Registry → RunResult
deriving DecidableEq, Repr

def RunResult.isOk : RunResult → Bool
  | RunResult.ok _ => true
  | _ => false

/-- `RegistryBuilder.run`: returns exit code 1 when the templates root
does not exist; otherwise scan, index, write, snippet.  `write_registry`
only serialises the registry (total on our value domain) and is a no-op
here.  An exception escaping `build_index` or snippet generation is not
caught anywhere and aborts the process (`crashed`). -/
def runBuilder (now : String) (root : Option (List TDir)) : RunResult :=
  match root with
  | none => RunResult.missingRoot
  | some tree =>
    let reg := scanTemplates (initRegistry now) tree
    match buildIndex reg with
    | none => RunResult.crashed
    | some reg2 =>
      match genSnippet reg2 with
      | none => RunResult.crashed
      | some _ => RunResult.ok reg2

/-!
## Template Validator (`scripts/validate-template.py`)

A validation run accumulates three ordered message lists.  The
`validate_metadata` and per-version chart bodies run inside
`try/except`: a raise keeps the messages appended so far and the
`except` clause appends one more error.  The Python exception text
interpolated into the two catch-all messages is abstracted as `...`
(no claim inspects it).
-/

structure Report where
  errors : List String
  warnings : List String
  info : List String
deriving DecidableEq, Repr

def emptyReport : Report := { errors := [], warnings := [], info := [] }

def Report.append (r s : Report) : Report :=
  { errors := r.errors ++ s.errors, warnings := r.warnings ++ s.warnings,
    info := r.info ++ s.info }

def addError (rep : Report) (e : String) : Report :=
  { rep with errors := rep.errors ++ [e] }

def addWarning (rep : Report) (w : String) : Report :=
  { rep with warnings := rep.warnings ++ [w] }

def addInfo (rep : Report) (i : String) : Report :=
  { rep with info := rep.info ++ [i] }

/-- A per-version subdirectory of `versions/` (only directories are
listed by the source's `is_dir` filter).  `chart : none` means no
`Chart.yaml`; `some none` a file whose `yaml.safe_load` raises. -/
structure VersionDir where
  vname : String
  chart : Option (Option Yaml)
  hasValues : Bool
  hasConverters : Bool
deriving DecidableEq, Repr

/-- A template directory as the validator observes it.
`metadataFile : none` means no `metadata.yaml`; `some none` a file whose
`yaml.safe_load` raises; `versionsDir`/`examplesDir` are `none` when the
directory is missing, otherwise the version subdirectories resp. the
files matching `*.yaml`/`*.yml` with their parse outcomes. -/
structure TemplateDir where
  metadataFile : Option (Option Yaml)
  hasReadme : Bool
  versionsDir : Option (List VersionDir)
  examplesDir : Option (List (String × Option Yaml))
deriving DecidableEq, Repr

/-- `validate_structure`: one error per missing required entry, in
source order. -/
def structErrors (t : TemplateDir) : List String :=
  (if t.metadataFile.isSome then [] else ["Missing required file: metadata.yaml"]) ++
  (if t.hasReadme then [] else ["Missing required file: README.md"]) ++
  (if t.versionsDir.isSome then [] else ["Missing required directory: versions"]) ++
  (if t.examplesDir.isSome then [] else ["Missing required directory: examples"])

def validateStructure (t : TemplateDir) (rep : Report) : Report :=
  { rep with errors := rep.errors ++ structErrors t }

def requiredFieldList : List String :=
  ["name", "displayName", "description", "author", "categories", "version", "versions"]

def requiredFieldMsg (f : String) : String :=
  "metadata.yaml missing required field: " ++ f

/-- The required-fields loop of `validate_metadata`.  `Except.error`
carries the report at the point the `in` test raises. -/
def requiredFieldsStep (m : Yaml) (rep : Report) : Except Report Report :=
  requiredFieldList.foldlM
    (fun r f =>
      match pyContainsStr m f with
      | none => Except.error r
      | some true => Except.ok r
      | some false => Except.ok (addError r (requiredFieldMsg f)))
    rep

/-- The author check of `validate_metadata`. -/
def authorCheckStep (m : Yaml) (rep : Report) : Except Report Report :=
  match pyContainsStr m "author" with
  | none => Except.error rep
  | some false => Except.ok rep
  | some true =>
    match pySubscript m "author" with
    | none => Except.error rep
    | some av =>
      if !av.isMap then Except.ok (addError rep "author must be a dictionary")
      else
        match pyContainsStr av "name" with
        | none => Except.error rep
        | some true => Except.ok rep
        | some false => Except.ok (addError rep "author must have a name field")

/-- The categories check of `validate_metadata`. -/
def categoriesCheckStep (m : Yaml) (rep : Report) : Except Report Report :=
  match pyContainsStr m "categories" with
  | none => Except.error rep
  | some false => Except.ok rep
  | some true =>
    match pySubscript m "categories" with
    | none => Except.error rep
    | some cv =>
      match pyContainsStr cv "primary" with
      | none => Except.error rep
      | some true => Except.ok rep
      | some false => Except.ok (addError rep "categories must have a primary category")

def latestNotFoundMsg (latest : Yaml) : String :=
  "Latest version " ++ pyStr latest ++ " not found in versions"

/-- The version check of `validate_metadata`: `latest` is read with
`.get` (raises on a non-dict `version` value); a falsy `latest` is an
error, and the `latest in versions` membership test still runs. -/
def versionCheckStep (m : Yaml) (rep : Report) : Except Report Report :=
  match pyContainsStr m "version" with
  | none => Except.error rep
  | some false => Except.ok rep
  | some true =>
    match pySubscript m "version" with
    | none => Except.error rep
    | some vv =>
      match dictGet vv "latest" with
      | none => Except.error rep
      | some latest =>
        let rep1 := if pyTruthy latest then rep else addError rep "version must specify latest"
        match pyContainsStr m "versions" with
        | none => Except.error rep1
        | some false => Except.ok rep1
        | some true =>
          match pySubscript m "versions" with
          | none => Except.error rep1
          | some vsv =>
            match pyContainsY vsv latest with
            | none => Except.error rep1
            | some true => Except.ok rep1
            | some false => Except.ok (addError rep1 (latestNotFoundMsg latest))

def versionFieldList : List String :=
  ["date", "policyLibrary", "openshift", "acm", "changes"]

/-- `.items()` on a parsed value: dicts only. -/
def yamlItems : Yaml → Option (List (String × Yaml))
  | Yaml.map kvs => some kvs
  | _ => none

/-- One iteration of the per-version-entry loop: a non-dict value is an
error (and skips the field checks); each missing detail field is a
warning. -/
def versionEntryStep (rep : Report) (kv : String × Yaml) : Report :=
  if !kv.2.isMap then addError rep ("Version " ++ kv.1 ++ " must have details")
  else
    versionFieldList.foldl
      (fun r f =>
        match pyContainsStr kv.2 f with
        | some true => r
        | _ => addWarning r ("Version " ++ kv.1 ++ " missing field: " ++ f))
      rep

/-- The `versions` entries loop of `validate_metadata`. -/
def versionsEntriesStep (m : Yaml) (rep : Report) : Except Report Report :=
  match pyContainsStr m "versions" with
  | none => Except.error rep
  | some false => Except.ok rep
  | some true =>
    match pySubscript m "versions" with
    | none => Except.error rep
    | some vsv =>
      match yamlItems vsv with
      | none => Except.error rep
      | some kvs => Except.ok (kvs.foldl versionEntryStep rep)

def recommendedFieldList : List String :=
  ["tags", "features", "requirements", "complexity"]

def recommendedFieldMsg (f : String) : String :=
  "Consider adding recommended field: " ++ f

/-- The recommended-fields loop of `validate_metadata`. -/
def recommendedStep (m : Yaml) (rep : Report) : Except Report Report :=
  recommendedFieldList.foldlM
    (fun r f =>
      match pyContainsStr m f with
      | none => Except.error r
      | some true => Except.ok r
      | some false => Except.ok (addWarning r (recommendedFieldMsg f)))
    rep

/-- The three informational lines at the end of `validate_metadata`,
each appended before the next access can raise. -/
def infoStep (m : Yaml) (rep : Report) : Except Report Report :=
  match dictGet m "name" with
  | none => Except.error rep
  | some nm =>
    let rep1 := addInfo rep ("Template name: " ++ pyStr nm)
    match (dictGetD m "version" (Yaml.map [])).bind (fun v => dictGet v "latest") with
    | none => Except.error rep1
    | some lv =>
      let rep2 := addInfo rep1 ("Latest version: " ++ pyStr lv)
      match (dictGetD m "versions" (Yaml.map [])).bind pyLen with
      | none => Except.error rep2
      | some n => Except.ok (addInfo rep2 ("Total versions: " ++ toString n))

/-- The `try` body of `validate_metadata` on a parsed document. -/
def metaBody (m : Yaml) (rep : Report) : Except Report Report := do
  let r1 ← requiredFieldsStep m rep
  let r2 ← authorCheckStep m r1
  let r3 ← categoriesCheckStep m r2
  let r4 ← versionCheckStep m r3
  let r5 ← versionsEntriesStep m r4
  let r6 ← recommendedStep m r5
  infoStep m r6

def yamlFailMsg : String := "Invalid YAML in metadata.yaml: ..."

def readFailMsg : String := "Error reading metadata.yaml: ..."

/-- `validate_metadata` on the parse outcome of an existing
`metadata.yaml`: a `yaml.YAMLError` is one error; any other exception in
the body is caught by `except Exception` and appended as the catch-all
read error, after whatever the body appended before raising. -/
def validateMetadata (doc : Option Yaml) (rep : Report) : Report :=
  match doc with
  | none => addError rep yamlFailMsg
  | some m =>
    match metaBody m rep with
    | Except.ok r => r
    | Except.error r => addError r readFailMsg

/-- The `any(dep.get("name") == "policy-library" for dep in ...)`
generator: short-circuits at the first hit; raises (`none`) when a
scanned element has no `.get`. -/
def depHasPolicyLib : List Yaml → Option Bool
  | [] => some false
  | d :: ds =>
    match dictGet d "name" with
    | none => none
    | some n => if n = Yaml.str "policy-library" then some true else depHasPolicyLib ds

def invalidChartMsg (v : String) : String :=
  "Version " ++ v ++ ": Invalid Chart.yaml: ..."

/-- The `try` body of the Chart.yaml check for one version. -/
def chartBody (c : Yaml) (v : String) (rep : Report) : Except Report Report :=
  match pyContainsStr c "dependencies" with
  | none => Except.error rep
  | some false =>
    Except.ok (addWarning rep ("Version " ++ v ++ ": Chart.yaml missing dependencies"))
  | some true =>
    match dictGetD c "dependencies" (Yaml.list []) with
    | none => Except.error rep
    | some dv =>
      match pyIter dv with
      | none => Except.error rep
      | some ds =>
        match depHasPolicyLib ds with
        | none => Except.error rep
        | some true => Except.ok rep
        | some false =>
          Except.ok (addError rep ("Version " ++ v ++ ": Missing policy-library dependency"))

/-- The Chart.yaml check of `validate_versions`: parse failures and any
exception in the body produce the same catch-all error. -/
def chartCheck (v : VersionDir) (rep : Report) : Report :=
  match v.chart with
  | none => rep
  | some none => addError rep (invalidChartMsg v.vname)
  | some (some c) =>
    match chartBody c v.vname rep with
    | Except.ok r => r
    | Except.error r => addError r (invalidChartMsg v.vname)

/-- One iteration of the per-version loop of `validate_versions`. -/
def versionDirCheck (rep : Report) (v : VersionDir) : Report :=
  let r1 := if v.chart.isSome then rep
            else addError rep ("Version " ++ v.vname ++ " missing required file: Chart.yaml")
  let r2 := if v.hasValues then r1
            else addError r1 ("Version " ++ v.vname ++ " missing required file: values.yaml")
  let r3 := chartCheck v r2
  let r4 := if v.hasConverters then r3
            else addWarning r3 ("Version " ++ v.vname ++ ": No converters directory")
  addInfo r4 ("Found version: " ++ v.vname)

/-- `validate_versions` as a function of the `versions/` directory
contents: absent directory is silently skipped; an empty directory is
the no-versions error; otherwise each version is checked. -/
def versionsFindings (vd : Option (List VersionDir)) (rep : Report) : Report :=
  match vd with
  | none => rep
  | some [] => addError rep "No version directories found in versions/"
  | some vs => vs.foldl versionDirCheck rep

def validateVersions (t : TemplateDir) (rep : Report) : Report :=
  versionsFindings t.versionsDir rep

def notDictMsg (n : String) : String :=
  "Example " ++ n ++ ": Not a valid YAML dictionary"

def missingStackMsg (n : String) : String :=
  "Example " ++ n ++ ": Missing \x27stack\x27 key"

/-- One iteration of the per-example loop of `validate_examples`: the
info line is appended only when parsing succeeded (it sits inside the
`try` block, after the checks). -/
def exampleCheck (rep : Report) (ex : String × Option Yaml) : Report :=
  match ex.2 with
  | none => addError rep ("Example " ++ ex.1 ++ ": Invalid YAML: ...")
  | some doc =>
    let r1 :=
      if !doc.isMap then addError rep (notDictMsg ex.1)
      else
        match pyContainsStr doc "stack" with
        | some true => rep
        | _ => addWarning rep (missingStackMsg ex.1)
    addInfo r1 ("Found example: " ++ ex.1)

/-- `validate_examples` as a function of the `examples/` directory
contents: absent directory is skipped; no YAML-family files is a
warning; otherwise each file is checked. -/
def examplesFindings (ed : Option (List (String × Option Yaml))) (rep : Report) : Report :=
  match ed with
  | none => rep
  | some [] => addWarning rep "No example files found in examples/"
  | some exs => exs.foldl exampleCheck rep

def validateExamples (t : TemplateDir) (rep : Report) : Report :=
  examplesFindings t.examplesDir rep

/-- `TemplateValidator.validate`: runs the four checks in order, then
returns `len(self.errors) == 0`. -/
def validateT (t : TemplateDir) : Report × Bool :=
  let r1 := validateStructure t emptyReport
  let r2 :=
    match t.metadataFile with
    | none => r1
    | some doc => validateMetadata doc r1
  let r3 := validateVersions t r2
  let r4 := validateExamples t r3
  (r4, r4.errors.isEmpty)

/-- The non-hidden subdirectories of the templates root that a
multi-template run validates, in `iterdir` order. -/
def validatedDirs (root : Option (List (String × TemplateDir))) :
    List (String × TemplateDir) :=
  (root.getD []).filter (fun d => !strStartsWith d.1 ".")

/-- `validate_all_templates`: `False` on a missing root; `True` when no
templates are found; otherwise the conjunction of the per-template
results (the source validates every template and ANDs the outcomes). -/
def validateAll (root : Option (List (String × TemplateDir))) : Bool :=
  match root with
  | none => false
  | some _ => (validatedDirs root).all (fun d => (validateT d.2).2)

/-- `main` of the validator: `--all` (or no positional template) scans
the root, otherwise the single named template is validated; exit code 0
on success, 1 otherwise. -/
def mainExit (tmpl : Option TemplateDir) (allFlag : Bool)
    (root : Option (List (String × TemplateDir))) : Nat :=
  let success :=
    if allFlag || tmpl.isNone then validateAll root
    else
      match tmpl with
      | some t => (validateT t).2
      | none => validateAll root
  if success then 0 else 1

/-!
## Derived notions used by the specification claims
-/

/-- Number of keys of a template entry's `versions` mapping (`0` when
the field was absent, i.e. stored as `None`). -/
def entryVersionCount (e : Entry) : Nat :=
  match e.versions with
  | Yaml.map kvs => kvs.length
  | _ => 0

/-- The count invariant of the spec: `stats.total_templates ==
len(templates)` and `stats.total_versions == sum of per-template
version-key counts`. -/
def countInv (reg : Registry) : Prop :=
  reg.total_templates = reg.templates.length ∧
  reg.total_versions = (reg.templates.map entryVersionCount).sum

/-- A `categories` value on which `process_template` completes: absent,
or a mapping whose truthy `primary` (if any) is hashable. -/
def catsOkKvs (kvs : List (String × Yaml)) : Bool :=
  match alookup kvs "categories" with
  | none => true
  | some (Yaml.map ckvs) =>
    (match alookup ckvs "primary" with
     | none => true
     | some p => !pyTruthy p || pyHashable p)
  | some _ => false

/-- A `tags` value on which the tag loop completes: absent or a
sequence of hashable values. -/
def tagsOkKvs (kvs : List (String × Yaml)) : Bool :=
  match alookup kvs "tags" with
  | none => true
  | some (Yaml.list ts) => ts.all pyHashable
  | some _ => false

/-- A `versions` value whose key count is well defined: absent or a
mapping. -/
def versionsOkKvs (kvs : List (String × Yaml)) : Bool :=
  match alookup kvs "versions" with
  | none => true
  | some (Yaml.map _) => true
  | some _ => false

/-- Descriptors whose processing preserves the count invariant: either
the processing fails before the entry is appended (parse failure or a
non-mapping document), or the categories/tags/versions updates all
complete. -/
def c2okDoc : Option Yaml → Bool
  | none => true
  | some (Yaml.map kvs) => catsOkKvs kvs && tagsOkKvs kvs && versionsOkKvs kvs
  | some _ => true

/-- A present `name` that is a string (so that the `build_index` sorts
and the snippet lookups succeed). -/
def wfNameKvs (kvs : List (String × Yaml)) : Bool :=
  match alookup kvs "name" with
  | some (Yaml.str _) => true
  | _ => false

/-- `categories` absent, or a mapping whose truthy `primary` (if any)
is a string. -/
def wfCatsKvs (kvs : List (String × Yaml)) : Bool :=
  match alookup kvs "categories" with
  | none => true
  | some (Yaml.map ckvs) =>
    (match alookup ckvs "primary" with
     | none => true
     | some p => !pyTruthy p || p.isStr)
  | some _ => false

/-- `tags` absent or a list of strings. -/
def wfTagsKvs (kvs : List (String × Yaml)) : Bool :=
  match alookup kvs "tags" with
  | none => true
  | some (Yaml.list ts) => ts.all Yaml.isStr
  | some _ => false

/-- `author` absent, or a mapping whose truthy `name` (if any) is a
string. -/
def wfAuthorKvs (kvs : List (String × Yaml)) : Bool :=
  match alookup kvs "author" with
  | none => true
  | some (Yaml.map akvs) =>
    (match alookup akvs "name" with
     | none => true
     | some n => !pyTruthy n || n.isStr)
  | some _ => false

/-- `features` absent or sized. -/
def wfFeaturesKvs (kvs : List (String × Yaml)) : Bool :=
  match alookup kvs "features" with
  | none => true
  | some v => (pyLen v).isSome

/-- A well-formed parsed descriptor: a mapping with a string `name`,
mapping-or-absent `categories` (string primary), string-list-or-absent
`tags`, mapping-or-absent `versions` and `author` (string author name),
sized-or-absent `features`. -/
def wfMapDoc : Yaml → Bool
  | Yaml.map kvs =>
    wfNameKvs kvs && wfCatsKvs kvs && wfTagsKvs kvs && versionsOkKvs kvs &&
    wfAuthorKvs kvs && wfFeaturesKvs kvs
  | _ => false

/-- A parse outcome the builder handles without reaching `build_index`
or the snippet with a crash-inducing value: a `yaml.safe_load` failure,
or a well-formed mapping. -/
def wfDoc : Option Yaml → Bool
  | none => true
  | some m => wfMapDoc m

/-- A template tree all of whose descriptors (when present) are
well-formed or unparseable. -/
def wfTree (tree : List TDir) : Bool :=
  tree.all (fun d =>
    match d.metadata with
    | none => true
    | some doc => wfDoc doc)

def entryNames (reg : Registry) : List Yaml :=
  reg.templates.map (fun e => e.name)

/-- Registry states reachable from well-formed descriptors: all entry
names are strings, category keys are strings and category buckets refer
to existing entry names, tag buckets hold strings, author names are
strings. -/
def regWF (reg : Registry) : Prop :=
  (∀ y ∈ entryNames reg, y.isStr = true) ∧
  (∀ kv ∈ reg.categories, kv.1.isStr = true ∧ ∀ n ∈ kv.2, n ∈ entryNames reg) ∧
  (∀ kv ∈ reg.tags, ∀ n ∈ kv.2, n.isStr = true) ∧
  (∀ a ∈ reg.authors, a.isStr = true)

/-- The registry with its build timestamp scrubbed, for comparing two
runs of the builder. -/
def eraseGen : RunResult → RunResult
  | RunResult.ok reg => RunResult.ok { reg with generated := "" }
  | r => r

/-- A pure findings function that only appends to the report. -/
def Appends (f : Report → Report) : Prop :=
  ∀ rep, f rep = rep.append (f emptyReport)

/-- A raising findings function that only appends to the report on both
the success and the raise path. -/
def ExceptAppends (f : Report → Except Report Report) : Prop :=
  ∀ rep,
    f rep =
      match f emptyReport with
      | Except.ok d => Except.ok (rep.append d)
      | Except.error d => Except.error (rep.append d)

/-- Findings of the metadata-content check alone, as a function of the
descriptor file state. -/
def metaDelta (mf : Option (Option Yaml)) : Report :=
  match mf with
  | none => emptyReport
  | some doc => validateMetadata doc emptyReport

/-- Findings of one metadata sub-check alone (the report it leaves from
an empty report, whether or not it raises). -/
def stepDelta (f : Report → Except Report Report) : Report :=
  match f emptyReport with
  | Except.ok r => r
  | Except.error r => r

/-- The `try` body of `validate_metadata` runs to completion on this
document (no caught exception). -/
def metaOk (m : Yaml) : Bool :=
  match metaBody m emptyReport with
  | Except.ok _ => true
  | Except.error _ => false

/-- Adding one (previously absent) field to a parsed mapping: YAML/dict
insertion appends the new key at the end. -/
def addField (kvs : List (String × Yaml)) (f : String) (v : Yaml) : Yaml :=
  Yaml.map (kvs ++ [(f, v)])

/-!
## Concrete inputs used by witnesses and counterexamples
-/

/-- A descriptor whose `categories` value is a bare string: building and
appending the entry succeeds, then `.get("primary")` raises. -/
def c1doc : Option Yaml :=
  some (Yaml.map [("name", Yaml.str "a"), ("categories", Yaml.str "c")])

/-- A descriptor whose `categories` value is a number: the entry is
appended, then the category step raises before the stats update. -/
def c2doc : Option Yaml :=
  some (Yaml.map [("name", Yaml.str "b"), ("categories", Yaml.int 3)])

/-- A tree of well-behaved descriptors (plus one unparseable one). -/
def c2tree : List TDir :=
  [⟨"a", some (some (Yaml.map
      [("name", Yaml.str "a"), ("versions", Yaml.map [("1.0", Yaml.null)])]))⟩,
   ⟨"bad", some none⟩]

/-- Two parseable descriptors whose entry names (`None` and `"a"`) are
incomparable, so the `build_index` sort raises `TypeError`. -/
def c3crashTree : List TDir :=
  [⟨"t1", some (some (Yaml.map []))⟩,
   ⟨"t2", some (some (Yaml.map [("name", Yaml.str "a")]))⟩]

/-- A fully well-formed descriptor. -/
def c3doc : Yaml := Yaml.map
  [("name", Yaml.str "alpha"), ("displayName", Yaml.str "Alpha"),
   ("description", Yaml.str "demo"),
   ("author", Yaml.map [("name", Yaml.str "bob")]),
   ("categories", Yaml.map [("primary", Yaml.str "security")]),
   ("tags", Yaml.list [Yaml.str "rbac", Yaml.str "scc"]),
   ("version", Yaml.map [("latest", Yaml.str "1.0")]),
   ("versions", Yaml.map [("1.0", Yaml.map [("date", Yaml.str "2025-01-01")])]),
   ("features", Yaml.list [Yaml.str "f1"])]

def c3tree : List TDir :=
  [⟨"alpha", some (some c3doc)⟩, ⟨".git", none⟩, ⟨"empty", none⟩,
   ⟨"broken", some none⟩]

/-- Two well-formed descriptors sharing a primary category and a tag,
with names out of order. -/
def c5tree : List TDir :=
  [⟨"b", some (some (Yaml.map
      [("name", Yaml.str "b"),
       ("author", Yaml.map [("name", Yaml.str "zoe")]),
       ("categories", Yaml.map [("primary", Yaml.str "security")]),
       ("tags", Yaml.list [Yaml.str "x", Yaml.str "w"])]))⟩,
   ⟨"a", some (some (Yaml.map
      [("name", Yaml.str "a"),
       ("author", Yaml.map [("name", Yaml.str "amy")]),
       ("categories", Yaml.map [("primary", Yaml.str "security")]),
       ("tags", Yaml.list [Yaml.str "x"])]))⟩]

def c5reg : Registry := scanTemplates (initRegistry "g") c5tree

def c5reg2 : Registry := (buildIndex c5reg).getD (initRegistry "")

/-- A descriptor meeting every hypothesis of the C8 scenario. -/
def c8doc : Yaml := Yaml.map
  [("name", Yaml.str "a"), ("displayName", Yaml.str "A"),
   ("description", Yaml.str "d"),
   ("author", Yaml.map [("name", Yaml.str "bob")]),
   ("categories", Yaml.map [("primary", Yaml.str "security")]),
   ("version", Yaml.map [("latest", Yaml.str "2.0")]),
   ("versions", Yaml.map
      [("1.0", Yaml.map
         [("date", Yaml.str "x"), ("policyLibrary", Yaml.str "y"),
          ("openshift", Yaml.str "z"), ("acm", Yaml.str "w"),
          ("changes", Yaml.str "c")])])]

/-- A descriptor missing only `categories`, whose `version.latest` is
not a key of `versions`: it reports both a required-field error and a
latest-not-found error. -/
def c9kvs0 : List (String × Yaml) :=
  [("name", Yaml.str "a"), ("displayName", Yaml.str "A"),
   ("description", Yaml.str "d"),
   ("author", Yaml.map [("name", Yaml.str "bob")]),
   ("version", Yaml.map [("latest", Yaml.str "2.0")]),
   ("versions", Yaml.map [("1.0", Yaml.map [])])]

/-- A descriptor missing only `displayName` (used for the amended
monotonicity claim with the non-raising added value `"D"`). -/
def c9kvs : List (String × Yaml) :=
  [("name", Yaml.str "a"), ("description", Yaml.str "d"),
   ("author", Yaml.map [("name", Yaml.str "bob")]),
   ("categories", Yaml.map [("primary", Yaml.str "c")]),
   ("version", Yaml.map [("latest", Yaml.str "1.0")]),
   ("versions", Yaml.map [("1.0", Yaml.map [])])]

/-!
## Sortedness lemmas for the modelled Python sort
-/

theorem mem_insOrd (le : α → α → Bool) (x : α) (l : List α) (a : α) :
    a ∈ insOrd le x l ↔ a = x ∨ a ∈ l := by
  induction l with
  | nil => simp [insOrd]
  | cons y ys ih =>
    cases h : le x y with
    | true => simp [insOrd, h, List.mem_cons]
    | false =>
      simp only [insOrd, h, Bool.false_eq_true, if_false, List.mem_cons, ih]
      tauto

theorem mem_isort (le : α → α → Bool) (l : List α) (a : α) :
    a ∈ isort le l ↔ a ∈ l := by
  induction l with
  | nil => simp [isort]
  | cons x xs ih => simp [isort, mem_insOrd, ih, List.mem_cons]

theorem pairwise_insOrd (le : α → α → Bool)
    (htrans : ∀ a b c, le a b = true → le b c = true → le a c = true)
    (x : α) (l : List α)
    (hl : l.Pairwise (fun a b => le a b = true))
    (htot : ∀ y ∈ l, le x y = true ∨ le y x = true) :
    (insOrd le x l).Pairwise (fun a b => le a b = true) := by
  induction l with
  | nil => simp [insOrd]
  | cons y ys ih =>
    rcases List.pairwise_cons.mp hl with ⟨hy, hys⟩
    cases h : le x y with
    | true =>
      rw [insOrd, if_pos h]
      refine List.pairwise_cons.mpr ⟨?_, hl⟩
      intro z hz
      rcases List.mem_cons.mp hz with rfl | hz2
      · exact h
      · exact htrans x y z h (hy z hz2)
    | false =>
      rw [insOrd, if_neg (by simp [h])]
      refine List.pairwise_cons.mpr ⟨?_, ?_⟩
      · intro z hz
        rcases (mem_insOrd le x ys z).mp hz with rfl | hz2
        · rcases htot y (by simp) with hxy | hyx
          · exact absurd hxy (by simp [h])
          · exact hyx
        · exact hy z hz2
      · exact ih hys (fun z hz => htot z (List.mem_cons_of_mem y hz))

theorem pairwise_isort (le : α → α → Bool)
    (htrans : ∀ a b c, le a b = true → le b c = true → le a c = true)
    (l : List α)
    (htot : l.Pairwise (fun a b => le a b = true ∨ le b a = true)) :
    (isort le l).Pairwise (fun a b => le a b = true) := by
  induction l with
  | nil => simp [isort]
  | cons x xs ih =>
    rcases List.pairwise_cons.mp htot with ⟨hx, hxs⟩
    rw [isort]
    apply pairwise_insOrd le htrans x (isort le xs) (ih hxs)
    intro y hy
    exact hx y ((mem_isort le xs y).mp hy)

theorem charListLe_trans : ∀ (as bs cs : List Char),
    charListLe as bs = true → charListLe bs cs = true → charListLe as cs = true := by
  intro as
  induction as with
  | nil => intro bs cs h1 h2; rfl
  | cons a as ih =>
    intro bs cs h1 h2
    cases bs with
    | nil => simp [charListLe] at h1
    | cons b bs2 =>
      cases cs with
      | nil => simp [charListLe] at h2
      | cons c cs2 =>
        rw [charListLe] at h1 h2 ⊢
        by_cases hab : a.toNat = b.toNat
        · rw [if_pos hab] at h1
          by_cases hbc : b.toNat = c.toNat
          · rw [if_pos hbc] at h2
            rw [if_pos (hab.trans hbc)]
            exact ih bs2 cs2 h1 h2
          · rw [if_neg hbc] at h2
            simp only [decide_eq_true_eq] at h2
            rw [if_neg (by omega)]
            simp only [decide_eq_true_eq]
            omega
        · rw [if_neg hab] at h1
          simp only [decide_eq_true_eq] at h1
          by_cases hbc : b.toNat = c.toNat
          · rw [if_neg (by omega)]
            simp only [decide_eq_true_eq]
            omega
          · rw [if_neg hbc] at h2
            simp only [decide_eq_true_eq] at h2
            rw [if_neg (by omega)]
            simp only [decide_eq_true_eq]
            omega

theorem charListLe_total : ∀ (as bs : List Char),
    charListLe as bs = true ∨ charListLe bs as = true := by
  intro as
  induction as with
  | nil => intro bs; left; rfl
  | cons a as ih =>
    intro bs
    cases bs with
    | nil => right; rfl
    | cons b bs2 =>
      rw [charListLe, charListLe]
      by_cases hab : a.toNat = b.toNat
      · rw [if_pos hab, if_pos hab.symm]
        exact ih bs2
      · rw [if_neg hab, if_neg (fun h => hab h.symm)]
        simp only [decide_eq_true_eq]
        omega

theorem pyLe_trans (a b c : Yaml) (h1 : pyLeB a b = true) (h2 : pyLeB b c = true) :
    pyLeB a c = true := by
  cases a <;> cases b <;> cases c <;> simp_all [pyLeB] <;>
    first
    | omega
    | exact charListLe_trans _ _ _ (by assumption) (by assumption)

theorem pyLe_total (a b : Yaml) (h : pyComparable a b = true) :
    pyLeB a b = true ∨ pyLeB b a = true := by
  cases a <;> cases b <;> simp_all [pyComparable, pyLeB] <;>
    first
    | omega
    | exact charListLe_total _ _

theorem allComp_pairwise (l : List Yaml) (h : allComp l = true) :
    l.Pairwise (fun a b => pyComparable a b = true) := by
  induction l with
  | nil => simp
  | cons x xs ih =>
    rw [allComp, Bool.and_eq_true, List.all_eq_true] at h
    exact List.pairwise_cons.mpr ⟨fun y hy => h.1 y hy, ih h.2⟩

theorem sortYL_some (xs ys : List Yaml) (h : sortYL xs = some ys) :
    allComp xs = true ∧ ys = isort pyLeB xs := by
  by_cases hc : allComp xs = true
  · rw [sortYL, if_pos hc] at h
    exact ⟨hc, (Option.some_inj.mp h).symm⟩
  · rw [sortYL, if_neg hc] at h
    cases h

theorem sortYL_sorted (xs ys : List Yaml) (h : sortYL xs = some ys) :
    ys.Pairwise (fun a b => pyLeB a b = true) := by
  rcases sortYL_some xs ys h with ⟨hc, rfl⟩
  exact pairwise_isort pyLeB pyLe_trans xs
    ((allComp_pairwise xs hc).imp (fun hab => pyLe_total _ _ hab))

theorem sortYL_mem (xs ys : List Yaml) (h : sortYL xs = some ys) (a : Yaml) :
    a ∈ ys ↔ a ∈ xs := by
  rcases sortYL_some xs ys h with ⟨-, rfl⟩
  exact mem_isort pyLeB xs a

theorem sortBuckets_some (bs cs : List (Yaml × List Yaml))
    (h : sortBuckets bs = some cs) :
    ∀ kv ∈ cs, ∃ kv0 ∈ bs, kv.1 = kv0.1 ∧ sortYL kv0.2 = some kv.2 := by
  induction bs generalizing cs with
  | nil =>
    rw [sortBuckets] at h
    cases h
    simp
  | cons b bs ih =>
    rw [sortBuckets] at h
    cases hl : sortYL b.2 with
    | none => rw [hl] at h; cases h
    | some l =>
      rw [hl] at h
      cases hrest : sortBuckets bs with
      | none => rw [hrest] at h; cases h
      | some rest =>
        rw [hrest] at h
        cases h
        intro kv hkv
        rcases List.mem_cons.mp hkv with rfl | hkv2
        · exact ⟨b, List.mem_cons_self b bs, rfl, hl⟩
        · rcases ih rest hrest kv hkv2 with ⟨kv0, hkv0, heq, hsort⟩
          exact ⟨kv0, List.mem_cons_of_mem b hkv0, heq, hsort⟩

theorem buildIndex_some (reg reg2 : Registry) (h : buildIndex reg = some reg2) :
    allComp (reg.templates.map (fun e => e.name)) = true ∧
    reg2.templates = isort entLe reg.templates ∧
    sortBuckets reg.categories = some reg2.categories ∧
    sortBuckets reg.tags = some reg2.tags ∧
    sortYL reg.authors = some reg2.authors ∧
    reg2.generated = reg.generated ∧ reg2.version = reg.version ∧
    reg2.total_templates = reg.total_templates ∧
    reg2.total_versions = reg.total_versions := by
  by_cases hc : allComp (reg.templates.map (fun e => e.name)) = true
  · rw [buildIndex, if_pos hc] at h
    cases hcats : sortBuckets reg.categories with
    | none => rw [hcats] at h; cases h
    | some cats =>
      rw [hcats] at h
      cases htags : sortBuckets reg.tags with
      | none => rw [htags] at h; cases h
      | some tags =>
        rw [htags] at h
        cases hauth : sortYL reg.authors with
        | none => rw [hauth] at h; cases h
        | some auth =>
          rw [hauth] at h
          cases h
          refine ⟨hc, rfl, ?_, ?_, ?_, rfl, rfl, rfl, rfl⟩ <;>
            simp [hcats, htags, hauth]
  · rw [buildIndex, if_neg hc] at h
    cases h

/-- C5: whenever `build_index` completes (it sorts in place and can
only fail by raising, in which case the builder run aborts), the
resulting registry has its template list sorted ascending by `name`,
every category bucket and tag bucket sorted ascending, and the
`authors` stat materialised as an ascending sorted sequence. -/
theorem claim_c5_sorted_indexes (reg reg2 : Registry) (h : buildIndex reg = some reg2) :
    reg2.templates.Pairwise (fun a b => pyLeB a.name b.name = true) ∧
    (∀ kv ∈ reg2.categories, kv.2.Pairwise (fun a b => pyLeB a b = true)) ∧
    (∀ kv ∈ reg2.tags, kv.2.Pairwise (fun a b => pyLeB a b = true)) ∧
    reg2.authors.Pairwise (fun a b => pyLeB a b = true) := by
  rcases buildIndex_some reg reg2 h with ⟨hc, hts, hcats, htags, hauth, -, -, -, -⟩
  refine ⟨?_, ?_, ?_, sortYL_sorted _ _ hauth⟩
  · rw [hts]
    have hpw : reg.templates.Pairwise
        (fun a b => pyComparable a.name b.name = true) :=
      (List.pairwise_map.mp (allComp_pairwise _ hc))
    have : (isort entLe reg.templates).Pairwise (fun a b => entLe a b = true) :=
      pairwise_isort entLe
        (fun a b c h1 h2 => pyLe_trans a.name b.name c.name h1 h2)
        reg.templates (hpw.imp (fun hab => pyLe_total _ _ hab))
    exact this.imp (fun hab => hab)
  · intro kv hkv
    rcases sortBuckets_some _ _ hcats kv hkv with ⟨kv0, -, -, hsort⟩
    exact sortYL_sorted _ _ hsort
  · intro kv hkv
    rcases sortBuckets_some _ _ htags kv hkv with ⟨kv0, -, -, hsort⟩
    exact sortYL_sorted _ _ hsort

/-- Witness for C5 at a concrete two-template registry. -/
theorem claim_c5_sorted_indexes_witness :
    buildIndex c5reg = some c5reg2 ∧
    c5reg2.templates.Pairwise (fun a b => pyLeB a.name b.name = true) ∧
    (∀ kv ∈ c5reg2.categories, kv.2.Pairwise (fun a b => pyLeB a b = true)) ∧
    (∀ kv ∈ c5reg2.tags, kv.2.Pairwise (fun a b => pyLeB a b = true)) ∧
    c5reg2.authors.Pairwise (fun a b => pyLeB a b = true) :=
  ⟨by decide, claim_c5_sorted_indexes c5reg c5reg2 (by decide)⟩

/-!
## Shape lemmas for `process_template`
-/

theorem mkEntry_none_of_not_map (m : Yaml) (h : m.isMap = false) :
    mkEntry m = none := by
  cases m <;> simp_all [mkEntry, dictGet, Yaml.isMap]

theorem mkEntry_map (kvs : List (String × Yaml)) :
    mkEntry (Yaml.map kvs) =
      (pyLen ((alookup kvs "features").getD (Yaml.list []))).map (fun fl =>
        { name := (alookup kvs "name").getD Yaml.null,
          displayName := (alookup kvs "displayName").getD Yaml.null,
          description := (alookup kvs "description").getD Yaml.null,
          author := (alookup kvs "author").getD Yaml.null,
          categories := (alookup kvs "categories").getD Yaml.null,
          tags := (alookup kvs "tags").getD (Yaml.list []),
          version := (alookup kvs "version").getD Yaml.null,
          versions := (alookup kvs "versions").getD Yaml.null,
          features := fl,
          requirements := (alookup kvs "requirements").getD Yaml.null,
          complexity := (alookup kvs "complexity").getD Yaml.null,
          path := "templates/" ++ pyStr ((alookup kvs "name").getD Yaml.null) }) := by
  cases hf : pyLen ((alookup kvs "features").getD (Yaml.list [])) <;>
    simp [mkEntry, dictGet, dictGetD, hf]

theorem categoriesStep_fields (reg : Registry) (m n : Yaml) (reg2 : Registry)
    (h : categoriesStep reg m n = some reg2) :
    reg2 = { reg with categories := reg2.categories } := by
  unfold categoriesStep at h
  cases hc : dictGetD m "categories" (Yaml.map []) with
  | none => rw [hc] at h; cases h
  | some cv =>
    rw [hc] at h
    simp only [Option.bind_eq_bind, Option.some_bind] at h
    cases hp : dictGet cv "primary" with
    | none => rw [hp] at h; cases h
    | some p =>
      rw [hp] at h
      simp only [Option.some_bind] at h
      by_cases ht : pyTruthy p = true
      · rw [if_pos ht] at h
        by_cases hh : pyHashable p = true
        · rw [if_pos hh] at h
          cases h
          rfl
        · rw [if_neg hh] at h
          cases h
      · rw [if_neg ht] at h
        cases h
        rfl

theorem categoriesStep_some_of_ok (reg : Registry) (n : Yaml)
    (kvs : List (String × Yaml)) (h : catsOkKvs kvs = true) :
    (categoriesStep reg (Yaml.map kvs) n).isSome = true := by
  unfold categoriesStep
  cases hc : alookup kvs "categories" with
  | none => simp [hc, dictGetD, dictGet, alookup, pyTruthy]
  | some cv =>
    cases cv with
    | map ckvs =>
      simp only [catsOkKvs, hc] at h
      cases hp : alookup ckvs "primary" with
      | none => simp [hc, hp, dictGetD, dictGet, pyTruthy]
      | some p =>
        simp only [hp] at h
        rcases (Bool.or_eq_true _ _).mp h with h2 | h2
        · have hf : pyTruthy p = false := by simpa using h2
          simp [hc, hp, dictGetD, dictGet, hf]
        · by_cases ht : pyTruthy p = true <;>
            simp [hc, hp, dictGetD, dictGet, ht, h2]
    | null => simp [catsOkKvs, hc] at h
    | int k => simp [catsOkKvs, hc] at h
    | str s => simp [catsOkKvs, hc] at h
    | list xs => simp [catsOkKvs, hc] at h

theorem tagsLoop_fields : ∀ (ts : List Yaml) (reg : Registry) (n : Yaml),
    (tagsLoop reg n ts).1 = { reg with tags := (tagsLoop reg n ts).1.tags } := by
  intro ts
  induction ts with
  | nil => intro reg n; rfl
  | cons t ts ih =>
    intro reg n
    by_cases hh : pyHashable t = true
    · simp only [tagsLoop, if_pos hh]
      exact ih _ n
    · simp only [tagsLoop, if_neg hh]

theorem tagsLoop_ok : ∀ (ts : List Yaml), ts.all pyHashable = true →
    ∀ (reg : Registry) (n : Yaml), (tagsLoop reg n ts).2 = false := by
  intro ts
  induction ts with
  | nil => intro _ reg n; rfl
  | cons t ts ih =>
    intro h reg n
    rw [List.all_cons, Bool.and_eq_true] at h
    simp only [tagsLoop, if_pos h.1]
    exact ih h.2 _ n

theorem tagsStep_fields (reg : Registry) (m n : Yaml) :
    (tagsStep reg m n).1 = { reg with tags := (tagsStep reg m n).1.tags } := by
  cases ht : dictGetD m "tags" (Yaml.list []) with
  | none => simp [tagsStep, ht]
  | some tv =>
    cases hi : pyIter tv with
    | none => simp [tagsStep, ht, hi]
    | some ts =>
      simp only [tagsStep, ht, hi]
      exact tagsLoop_fields ts reg n

theorem tagsStep_ok (reg : Registry) (n : Yaml) (kvs : List (String × Yaml))
    (h : tagsOkKvs kvs = true) :
    (tagsStep reg (Yaml.map kvs) n).2 = false := by
  cases ht : alookup kvs "tags" with
  | none => simp [tagsStep, tagsOkKvs, ht, dictGetD, pyIter, tagsLoop]
  | some tv =>
    cases tv with
    | list ts =>
      simp only [tagsOkKvs, ht] at h
      simp only [tagsStep, dictGetD, ht, Option.getD_some, pyIter]
      exact tagsLoop_ok ts h reg n
    | null => simp [tagsOkKvs, ht] at h
    | int k => simp [tagsOkKvs, ht] at h
    | str s2 => simp [tagsOkKvs, ht] at h
    | map ckvs => simp [tagsOkKvs, ht] at h

theorem statsStep_fields (reg : Registry) (m : Yaml) :
    (statsStep reg m).1 =
      { reg with total_templates := (statsStep reg m).1.total_templates,
                 total_versions := (statsStep reg m).1.total_versions } := by
  cases h : (dictGetD m "versions" (Yaml.map [])).bind pyLen <;>
    simp [statsStep, h]

theorem authorStep_fields (reg : Registry) (m : Yaml) :
    (authorStep reg m).1 = { reg with authors := (authorStep reg m).1.authors } := by
  cases h : (dictGetD m "author" (Yaml.map [])).bind (fun a => dictGet a "name") with
  | none => simp [authorStep, h]
  | some an =>
    by_cases ht : pyTruthy an = true
    · by_cases hh : pyHashable an = true <;> simp [authorStep, h, ht, hh]
    · simp [authorStep, h, ht]

theorem statsStep_ok (reg : Registry) (kvs : List (String × Yaml))
    (h : versionsOkKvs kvs = true) :
    statsStep reg (Yaml.map kvs) =
      ({ reg with total_templates := reg.total_templates + 1,
                  total_versions := reg.total_versions +
                    (match alookup kvs "versions" with
                     | some (Yaml.map vs) => vs.length
                     | _ => 0) }, false) := by
  cases hv : alookup kvs "versions" with
  | none => simp [statsStep, dictGetD, hv, pyLen]
  | some v =>
    cases v with
    | map vs => simp [statsStep, dictGetD, hv, pyLen]
    | null => simp [versionsOkKvs, hv] at h
    | int k => simp [versionsOkKvs, hv] at h
    | str s2 => simp [versionsOkKvs, hv] at h
    | list xs => simp [versionsOkKvs, hv] at h

theorem processTemplate_some_entry (reg : Registry) (m : Yaml) (e : Entry)
    (hE : mkEntry m = some e) :
    processTemplate reg (some m) =
      (match categoriesStep { reg with templates := reg.templates ++ [e] } m e.name with
       | none => ({ reg with templates := reg.templates ++ [e] }, true)
       | some reg2 =>
         match tagsStep reg2 m e.name with
         | (reg3, true) => (reg3, true)
         | (reg3, false) =>
           match statsStep reg3 m with
           | (reg4, true) => (reg4, true)
           | (reg4, false) => authorStep reg4 m) := by
  simp only [processTemplate, hE]

theorem processTemplate_countInv (reg : Registry) (doc : Option Yaml)
    (hdoc : c2okDoc doc = true) (hreg : countInv reg) :
    countInv (processTemplate reg doc).1 := by
  match doc with
  | none => exact hreg
  | some Yaml.null =>
    simp [processTemplate, mkEntry_none_of_not_map Yaml.null rfl]
    exact hreg
  | some (Yaml.int k) =>
    simp [processTemplate, mkEntry_none_of_not_map (Yaml.int k) rfl]
    exact hreg
  | some (Yaml.str s2) =>
    simp [processTemplate, mkEntry_none_of_not_map (Yaml.str s2) rfl]
    exact hreg
  | some (Yaml.list xs) =>
    simp [processTemplate, mkEntry_none_of_not_map (Yaml.list xs) rfl]
    exact hreg
  | some (Yaml.map kvs) =>
    simp only [c2okDoc, Bool.and_eq_true] at hdoc
    obtain ⟨⟨h1, h2⟩, h3⟩ := hdoc
    cases hf : pyLen ((alookup kvs "features").getD (Yaml.list [])) with
    | none =>
      have hE : mkEntry (Yaml.map kvs) = none := by rw [mkEntry_map, hf]; rfl
      simp [processTemplate, hE]
      exact hreg
    | some fl =>
      set e : Entry :=
        { name := (alookup kvs "name").getD Yaml.null,
          displayName := (alookup kvs "displayName").getD Yaml.null,
          description := (alookup kvs "description").getD Yaml.null,
          author := (alookup kvs "author").getD Yaml.null,
          categories := (alookup kvs "categories").getD Yaml.null,
          tags := (alookup kvs "tags").getD (Yaml.list []),
          version := (alookup kvs "version").getD Yaml.null,
          versions := (alookup kvs "versions").getD Yaml.null,
          features := fl,
          requirements := (alookup kvs "requirements").getD Yaml.null,
          complexity := (alookup kvs "complexity").getD Yaml.null,
          path := "templates/" ++ pyStr ((alookup kvs "name").getD Yaml.null) }
        with he
      have hE : mkEntry (Yaml.map kvs) = some e := by
        rw [mkEntry_map, hf]
        rfl
      rw [processTemplate_some_entry reg (Yaml.map kvs) e hE]
      set reg1 : Registry := { reg with templates := reg.templates ++ [e] } with hreg1
      obtain ⟨reg2, hreg2⟩ :=
        Option.isSome_iff_exists.mp (categoriesStep_some_of_ok reg1 e.name kvs h1)
      simp only [hreg2]
      rcases hp : tagsStep reg2 (Yaml.map kvs) e.name with ⟨reg3, b⟩
      have hb : b = false := by
        have hto := tagsStep_ok reg2 e.name kvs h2
        rw [hp] at hto
        exact hto
      subst hb
      simp only [statsStep_ok reg3 kvs h3]
      have hts3 : reg3.templates = reg1.templates ∧
          reg3.total_templates = reg1.total_templates ∧
          reg3.total_versions = reg1.total_versions := by
        have hcf := categoriesStep_fields reg1 (Yaml.map kvs) e.name reg2 hreg2
        have htf := tagsStep_fields reg2 (Yaml.map kvs) e.name
        rw [hp] at htf
        simp only at htf
        refine ⟨?_, ?_, ?_⟩ <;> (rw [htf, hcf])
      have hauth := authorStep_fields
        { reg3 with total_templates := reg3.total_templates + 1,
                    total_versions := reg3.total_versions +
                      (match alookup kvs "versions" with
                       | some (Yaml.map vs) => vs.length
                       | _ => 0) } (Yaml.map kvs)
      constructor
      · rw [hauth]
        simp only
        rw [hts3.2.1, hts3.1, hreg1]
        simp [hreg.1]
      · rw [hauth]
        simp only
        rw [hts3.2.2, hts3.1, hreg1]
        simp only [List.map_append, List.sum_append, List.map_cons, List.map_nil,
          List.sum_cons, List.sum_nil]
        have hvc : entryVersionCount e =
            (match alookup kvs "versions" with
             | some (Yaml.map vs) => vs.length
             | _ => 0) := by
          rw [he]
          cases hv : alookup kvs "versions" with
          | none => simp [entryVersionCount, hv]
          | some v =>
            cases v with
            | map vs => simp [entryVersionCount, hv]
            | null => simp [versionsOkKvs, hv] at h3
            | int k => simp [versionsOkKvs, hv] at h3
            | str s2 => simp [versionsOkKvs, hv] at h3
            | list xs => simp [versionsOkKvs, hv] at h3
        rw [hvc, hreg.2]
        omega

/-- C1 counterexample: on a descriptor whose `categories` value is a
bare string, `process_template` raises after the entry append, logs the
error — yet a partial entry remains: the templates list grew while the
stats did not, so the registry is not as it was before the call. -/
theorem claim_c1_counterexample :
    (processTemplate (initRegistry "t") c1doc).2 = true ∧
    (processTemplate (initRegistry "t") c1doc).1.templates.length = 1 ∧
    (processTemplate (initRegistry "t") c1doc).1.total_templates = 0 ∧
    (processTemplate (initRegistry "t") c1doc).1 ≠ initRegistry "t" := by
  decide

/-- C1 (amended): when the parse fails, or the structural error is
raised while the entry record is being built — in particular whenever
the document is not a mapping — `process_template` logs the error and
leaves the registry exactly as it was; an error raised after the append
(e.g. a non-mapping `categories` value) instead leaves the partial
updates made before it. -/
theorem claim_c1_skip_before_append (reg : Registry) (doc : Option Yaml)
    (h : doc = none ∨ ∃ m, doc = some m ∧ mkEntry m = none) :
    processTemplate reg doc = (reg, true) := by
  rcases h with rfl | ⟨m, rfl, hm⟩
  · rfl
  · simp [processTemplate, hm]

/-- Witness for the amended C1 at a bare-string descriptor. -/
theorem claim_c1_skip_before_append_witness :
    processTemplate (initRegistry "w") (some (Yaml.str "x")) = (initRegistry "w", true) :=
  claim_c1_skip_before_append (initRegistry "w") (some (Yaml.str "x"))
    (Or.inr ⟨Yaml.str "x", rfl, by decide⟩)

/-- C2 counterexample: a descriptor with a numeric `categories` value is
appended to the templates list, then the category step raises before
`total_templates` is incremented; the count invariant fails after the
scan. -/
theorem claim_c2_counterexample :
    ¬ countInv (scanTemplates (initRegistry "t") [⟨"x", some c2doc⟩]) := by
  unfold countInv
  decide

/-- C2 (amended): after scanning any tree in which every present
descriptor either fails before its entry is appended (unparseable or
not a mapping) or completes its category, tag and stats updates
(mapping-or-absent `categories` with hashable truthy primary, hashable
tag sequence, mapping-or-absent `versions`), the registry satisfies
`total_templates = len(templates)` and `total_versions = sum of the
per-entry versions-key counts`. -/
theorem claim_c2_count_invariant (now : String) (tree : List TDir)
    (h : ∀ d ∈ tree, ∀ doc, d.metadata = some doc → c2okDoc doc = true) :
    countInv (scanTemplates (initRegistry now) tree) := by
  have base : countInv (initRegistry now) := by
    constructor <;> rfl
  have main : ∀ (l : List TDir) (reg : Registry),
      (∀ d ∈ l, ∀ doc, d.metadata = some doc → c2okDoc doc = true) →
      countInv reg → countInv (scanTemplates reg l) := by
    intro l
    induction l with
    | nil => intro reg _ hr; exact hr
    | cons d ds ih =>
      intro reg hl hr
      rw [scanTemplates, List.foldl_cons]
      apply ih _ (fun d2 hd2 doc hdoc => hl d2 (List.mem_cons_of_mem d hd2) doc hdoc)
      rw [scanStep]
      by_cases hh : strStartsWith d.dname "." = true
      · rw [if_pos hh]; exact hr
      · rw [if_neg hh]
        cases hd : d.metadata with
        | none => exact hr
        | some doc =>
          exact processTemplate_countInv reg doc
            (hl d (List.mem_cons_self d ds) doc hd) hr
  exact main tree (initRegistry now) h base

/-- Witness for the amended C2 on a two-directory tree. -/
theorem claim_c2_count_invariant_witness :
    countInv (scanTemplates (initRegistry "w") c2tree) :=
  claim_c2_count_invariant "w" c2tree (by decide)

/-- C6 counterexample: with a missing templates root, zero templates
are validated — so "every validated template has an empty errors
sequence" holds vacuously — yet `validate_all_templates` returns
`False` and the process exits 1. -/
theorem claim_c6_counterexample :
    ¬ ((mainExit none true none = 0) ↔
       (∀ d ∈ validatedDirs none, (validateT d.2).1.errors = [])) := by
  intro h
  have h1 : (∀ d ∈ validatedDirs none, (validateT d.2).1.errors = []) := by
    intro d hd
    simp [validatedDirs] at hd
  have h2 := h.mpr h1
  simp [mainExit, validateAll] at h2

/-- C6 (amended): `validate()` returns true iff its errors sequence is
empty; a multi-template run exits 0 iff the root exists and every
validated template has an empty errors sequence (a missing root exits 1
with nothing validated); a single-template run exits 0 iff that
template's errors sequence is empty. -/
theorem claim_c6_exit_codes :
    (∀ t, ((validateT t).2 = true ↔ (validateT t).1.errors = [])) ∧
    (∀ l, (mainExit none true (some l) = 0 ↔
       ∀ d ∈ validatedDirs (some l), (validateT d.2).1.errors = [])) ∧
    (mainExit none true none = 1) ∧
    (∀ t root, mainExit (some t) false root = 0 ↔ (validateT t).1.errors = []) := by
  have hval : ∀ t, ((validateT t).2 = true ↔ (validateT t).1.errors = []) := by
    intro t
    rw [show (validateT t).2 = (validateT t).1.errors.isEmpty from rfl]
    exact List.isEmpty_iff
  refine ⟨hval, ?_, by rfl, ?_⟩
  · intro l
    rw [mainExit]
    simp only [Bool.true_or, if_true, validateAll, validatedDirs, Option.getD_some]
    constructor
    · intro h d hd
      by_cases hb : (List.filter (fun d => !strStartsWith d.1 ".") l).all
          (fun d => (validateT d.2).2) = true
      · exact (hval d.2).mp (List.all_eq_true.mp hb d hd)
      · rw [if_neg hb] at h
        cases h
    · intro h
      rw [if_pos (List.all_eq_true.mpr (fun d hd => (hval d.2).mpr (h d hd)))]
  · intro t root
    rw [mainExit]
    simp only [Option.isNone_some, Bool.or_false]
    rw [if_neg (show ¬ (false = true) by decide)]
    constructor
    · intro h
      by_cases hb : (validateT t).2 = true
      · exact (hval t).mp hb
      · rw [if_neg hb] at h
        cases h
    · intro h
      rw [if_pos ((hval t).mpr h)]

theorem exceptBind_ok {α β γ : Type} (a : β) (g : β → Except α γ) :
    ((Except.ok a : Except α β) >>= g) = g a := rfl

theorem strFoldErr (L : List String) (s : String) (rep : Report) :
    (L.foldlM (fun r f =>
      match pyContainsStr (Yaml.str s) f with
      | none => Except.error r
      | some true => Except.ok r
      | some false => Except.ok (addError r (requiredFieldMsg f))) rep
      : Except Report Report)
    = Except.ok { rep with errors :=
        rep.errors ++ (L.filter (fun f => !strContains s f)).map requiredFieldMsg } := by
  induction L generalizing rep with
  | nil =>
    simp only [List.foldlM_nil, List.filter_nil, List.map_nil, List.append_nil]
    rfl
  | cons f L ih =>
    rw [List.foldlM_cons]
    cases hc : strContains s f with
    | true =>
      have hstep : (match pyContainsStr (Yaml.str s) f with
          | none => (Except.error rep : Except Report Report)
          | some true => Except.ok rep
          | some false => Except.ok (addError rep (requiredFieldMsg f)))
          = Except.ok rep := by
        simp [pyContainsStr, hc]
      rw [hstep, exceptBind_ok, ih rep]
      simp [List.filter_cons, hc]
    | false =>
      have hstep : (match pyContainsStr (Yaml.str s) f with
          | none => (Except.error rep : Except Report Report)
          | some true => Except.ok rep
          | some false => Except.ok (addError rep (requiredFieldMsg f)))
          = Except.ok (addError rep (requiredFieldMsg f)) := by
        simp [pyContainsStr, hc]
      rw [hstep, exceptBind_ok, ih (addError rep (requiredFieldMsg f))]
      simp [List.filter_cons, hc, addError]

theorem strFoldWarn (L : List String) (s : String) (rep : Report) :
    (L.foldlM (fun r f =>
      match pyContainsStr (Yaml.str s) f with
      | none => Except.error r
      | some true => Except.ok r
      | some false => Except.ok (addWarning r (recommendedFieldMsg f))) rep
      : Except Report Report)
    = Except.ok { rep with warnings :=
        rep.warnings ++ (L.filter (fun f => !strContains s f)).map recommendedFieldMsg } := by
  induction L generalizing rep with
  | nil =>
    simp only [List.foldlM_nil, List.filter_nil, List.map_nil, List.append_nil]
    rfl
  | cons f L ih =>
    rw [List.foldlM_cons]
    cases hc : strContains s f with
    | true =>
      have hstep : (match pyContainsStr (Yaml.str s) f with
          | none => (Except.error rep : Except Report Report)
          | some true => Except.ok rep
          | some false => Except.ok (addWarning rep (recommendedFieldMsg f)))
          = Except.ok rep := by
        simp [pyContainsStr, hc]
      rw [hstep, exceptBind_ok, ih rep]
      simp [List.filter_cons, hc]
    | false =>
      have hstep : (match pyContainsStr (Yaml.str s) f with
          | none => (Except.error rep : Except Report Report)
          | some true => Except.ok rep
          | some false => Except.ok (addWarning rep (recommendedFieldMsg f)))
          = Except.ok (addWarning rep (recommendedFieldMsg f)) := by
        simp [pyContainsStr, hc]
      rw [hstep, exceptBind_ok, ih (addWarning rep (recommendedFieldMsg f))]
      simp [List.filter_cons, hc, addWarning]

/-- C10 counterexample: a descriptor file parsing to the bare string
`"hello"` is "parses successfully but not a mapping", yet — because the
Python `in` test on a string is a substring test — the metadata check
records seven required-field errors and four recommended-field warnings
before the catch-all read error, not exactly one error. -/
theorem claim_c10_counterexample :
    ¬ ((validateMetadata (some (Yaml.str "hello")) emptyReport).errors.length = 1 ∧
       (validateMetadata (some (Yaml.str "hello")) emptyReport).warnings = []) := by
  decide

/-- C10 (amended): for documents on which the membership test itself
raises (`None` and numbers) the metadata check records exactly the
catch-all read error and nothing else; for a bare-string document (not
containing `author`, `categories` or `version` as substrings) the
membership-based field loops run via substring tests, recording a
required-field error and a recommended-field warning for each absent
field name before the catch-all error, and no info lines. -/
theorem authorCheckStep_str_skip (s : String) (rep : Report)
    (h : strContains s "author" = false) :
    authorCheckStep (Yaml.str s) rep = Except.ok rep := by
  simp [authorCheckStep, pyContainsStr, h]

theorem categoriesCheckStep_str_skip (s : String) (rep : Report)
    (h : strContains s "categories" = false) :
    categoriesCheckStep (Yaml.str s) rep = Except.ok rep := by
  simp [categoriesCheckStep, pyContainsStr, h]

theorem versionCheckStep_str_skip (s : String) (rep : Report)
    (h : strContains s "version" = false) :
    versionCheckStep (Yaml.str s) rep = Except.ok rep := by
  simp [versionCheckStep, pyContainsStr, h]

theorem versionsEntriesStep_str_skip (s : String) (rep : Report)
    (h : strContains s "versions" = false) :
    versionsEntriesStep (Yaml.str s) rep = Except.ok rep := by
  simp [versionsEntriesStep, pyContainsStr, h]

theorem claim_c10_non_mapping_docs :
    (∀ n : Int, validateMetadata (some (Yaml.int n)) emptyReport =
       { errors := [readFailMsg], warnings := [], info := [] }) ∧
    (validateMetadata (some Yaml.null) emptyReport =
       { errors := [readFailMsg], warnings := [], info := [] }) ∧
    (∀ s : String,
       strContains s "author" = false →
       strContains s "categories" = false →
       strContains s "version" = false →
       strContains s "versions" = false →
       validateMetadata (some (Yaml.str s)) emptyReport =
         { errors := (requiredFieldList.filter (fun f => !strContains s f)).map
             requiredFieldMsg ++ [readFailMsg],
           warnings := (recommendedFieldList.filter (fun f => !strContains s f)).map
             recommendedFieldMsg,
           info := [] }) := by
  refine ⟨fun n => rfl, rfl, ?_⟩
  intro s h1 h2 h3 h4
  rw [validateMetadata]
  rw [show metaBody (Yaml.str s) emptyReport =
      (requiredFieldsStep (Yaml.str s) emptyReport >>= fun r1 =>
       authorCheckStep (Yaml.str s) r1 >>= fun r2 =>
       categoriesCheckStep (Yaml.str s) r2 >>= fun r3 =>
       versionCheckStep (Yaml.str s) r3 >>= fun r4 =>
       versionsEntriesStep (Yaml.str s) r4 >>= fun r5 =>
       recommendedStep (Yaml.str s) r5 >>= fun r6 =>
       infoStep (Yaml.str s) r6) from rfl]
  rw [show requiredFieldsStep (Yaml.str s) emptyReport =
      (requiredFieldList.foldlM (fun r f =>
        match pyContainsStr (Yaml.str s) f with
        | none => Except.error r
        | some true => Except.ok r
        | some false => Except.ok (addError r (requiredFieldMsg f))) emptyReport
        : Except Report Report) from rfl]
  rw [strFoldErr requiredFieldList s emptyReport]
  rw [exceptBind_ok]
  rw [authorCheckStep_str_skip s _ h1]
  rw [exceptBind_ok]
  rw [categoriesCheckStep_str_skip s _ h2]
  rw [exceptBind_ok]
  rw [versionCheckStep_str_skip s _ h3]
  rw [exceptBind_ok]
  rw [versionsEntriesStep_str_skip s _ h4]
  rw [exceptBind_ok]
  rw [show ∀ R : Report, recommendedStep (Yaml.str s) R =
      (recommendedFieldList.foldlM (fun r f =>
        match pyContainsStr (Yaml.str s) f with
        | none => Except.error r
        | some true => Except.ok r
        | some false => Except.ok (addWarning r (recommendedFieldMsg f))) R
        : Except Report Report) from fun R => rfl]
  rw [strFoldWarn recommendedFieldList s _]
  rw [exceptBind_ok]
  rw [show ∀ R : Report, infoStep (Yaml.str s) R = Except.error R from fun R => rfl]
  simp [addError, emptyReport]

/-- Witness for the amended C10 at the bare string `"hello"`. -/
theorem claim_c10_non_mapping_docs_witness :
    validateMetadata (some (Yaml.str "hello")) emptyReport =
      { errors := (requiredFieldList.filter (fun f => !strContains "hello" f)).map
          requiredFieldMsg ++ [readFailMsg],
        warnings := (recommendedFieldList.filter (fun f => !strContains "hello" f)).map
          recommendedFieldMsg,
        info := [] } :=
  claim_c10_non_mapping_docs.2.2 "hello" (by decide) (by decide) (by decide) (by decide)

/-!
## The build timestamp is the only run-dependent output (C4)
-/

theorem categoriesStep_gen (reg : Registry) (g : String) (m n : Yaml) :
    categoriesStep { reg with generated := g } m n =
      (categoriesStep reg m n).map (fun r => { r with generated := g }) := by
  cases hc : dictGetD m "categories" (Yaml.map []) with
  | none => simp [categoriesStep, hc]
  | some cv =>
    cases hp : dictGet cv "primary" with
    | none => simp [categoriesStep, hc, hp]
    | some p =>
      by_cases ht : pyTruthy p = true
      · by_cases hh : pyHashable p = true
        · simp [categoriesStep, hc, hp, ht, hh]
        · simp [categoriesStep, hc, hp, ht, hh]
      · simp [categoriesStep, hc, hp, ht]

theorem tagsLoop_gen (g : String) (n : Yaml) : ∀ (ts : List Yaml) (reg : Registry),
    tagsLoop { reg with generated := g } n ts =
      ({ (tagsLoop reg n ts).1 with generated := g }, (tagsLoop reg n ts).2) := by
  intro ts
  induction ts with
  | nil => intro reg; rfl
  | cons t ts ih =>
    intro reg
    by_cases hh : pyHashable t = true
    · simp only [tagsLoop, if_pos hh]
      exact ih { reg with tags := addToBucket reg.tags t n }
    · simp only [tagsLoop, if_neg hh]

theorem tagsStep_gen (reg : Registry) (g : String) (m n : Yaml) :
    tagsStep { reg with generated := g } m n =
      ({ (tagsStep reg m n).1 with generated := g }, (tagsStep reg m n).2) := by
  cases ht : dictGetD m "tags" (Yaml.list []) with
  | none => simp [tagsStep, ht]
  | some tv =>
    cases hi : pyIter tv with
    | none => simp [tagsStep, ht, hi]
    | some ts =>
      simp only [tagsStep, ht, hi]
      exact tagsLoop_gen g n ts reg

theorem statsStep_gen (reg : Registry) (g : String) (m : Yaml) :
    statsStep { reg with generated := g } m =
      ({ (statsStep reg m).1 with generated := g }, (statsStep reg m).2) := by
  cases h : (dictGetD m "versions" (Yaml.map [])).bind pyLen <;>
    simp [statsStep, h]

theorem authorStep_gen (reg : Registry) (g : String) (m : Yaml) :
    authorStep { reg with generated := g } m =
      ({ (authorStep reg m).1 with generated := g }, (authorStep reg m).2) := by
  cases h : (dictGetD m "author" (Yaml.map [])).bind (fun a => dictGet a "name") with
  | none => simp [authorStep, h]
  | some an =>
    by_cases ht : pyTruthy an = true
    · by_cases hh : pyHashable an = true <;> simp [authorStep, h, ht, hh]
    · simp [authorStep, h, ht]

theorem processTemplate_gen (reg : Registry) (g : String) (doc : Option Yaml) :
    processTemplate { reg with generated := g } doc =
      ({ (processTemplate reg doc).1 with generated := g },
       (processTemplate reg doc).2) := by
  cases doc with
  | none => rfl
  | some m =>
    cases hE : mkEntry m with
    | none => simp [processTemplate, hE]
    | some e =>
      rw [processTemplate_some_entry { reg with generated := g } m e hE,
          processTemplate_some_entry reg m e hE]
      dsimp only
      rw [categoriesStep_gen { reg with templates := reg.templates ++ [e] } g m e.name]
      cases hcs : categoriesStep { reg with templates := reg.templates ++ [e] } m e.name with
      | none => rfl
      | some reg2 =>
        dsimp only [Option.map]
        rw [tagsStep_gen reg2 g m e.name]
        rcases hp : tagsStep reg2 m e.name with ⟨reg3, b⟩
        cases b with
        | true => rfl
        | false =>
          dsimp only
          rw [statsStep_gen reg3 g m]
          rcases hq : statsStep reg3 m with ⟨reg4, b2⟩
          cases b2 with
          | true => rfl
          | false =>
            dsimp only
            exact authorStep_gen reg4 g m

theorem scanStep_gen (reg : Registry) (g : String) (d : TDir) :
    scanStep { reg with generated := g } d = { scanStep reg d with generated := g } := by
  by_cases hh : strStartsWith d.dname "." = true
  · simp only [scanStep, if_pos hh]
  · cases hd : d.metadata with
    | none => simp only [scanStep, if_neg hh, hd]
    | some doc =>
      simp only [scanStep, if_neg hh, hd]
      rw [processTemplate_gen]

theorem scanTemplates_gen (g : String) : ∀ (tree : List TDir) (reg : Registry),
    scanTemplates { reg with generated := g } tree =
      { scanTemplates reg tree with generated := g } := by
  intro tree
  induction tree with
  | nil => intro reg; rfl
  | cons d ds ih =>
    intro reg
    rw [show scanTemplates { reg with generated := g } (d :: ds) =
        scanTemplates (scanStep { reg with generated := g } d) ds from rfl]
    rw [show scanTemplates reg (d :: ds) =
        scanTemplates (scanStep reg d) ds from rfl]
    rw [scanStep_gen]
    exact ih (scanStep reg d)

theorem buildIndex_gen (reg : Registry) (g : String) :
    buildIndex { reg with generated := g } =
      (buildIndex reg).map (fun r => { r with generated := g }) := by
  unfold buildIndex
  dsimp only
  by_cases hc : allComp (reg.templates.map (fun e => e.name)) = true
  · rw [if_pos hc, if_pos hc]
    cases h1 : sortBuckets reg.categories with
    | none => rfl
    | some cats =>
      cases h2 : sortBuckets reg.tags with
      | none => rfl
      | some tags =>
        cases h3 : sortYL reg.authors with
        | none => rfl
        | some auth => rfl
  · rw [if_neg hc, if_neg hc]
    rfl

theorem genSnippet_gen (reg : Registry) (g : String) :
    genSnippet { reg with generated := g } = genSnippet reg := rfl

/-- C4: for a fixed template tree, two builder runs differ at most in
the `generated` timestamp: with the timestamp scrubbed, the run results
(including the full registry — templates, categories, tags, stats — and
the success/crash outcome) are identical whatever the two `now` values
were. -/
theorem claim_c4_determinism (n1 n2 : String) (root : Option (List TDir)) :
    eraseGen (runBuilder n1 root) = eraseGen (runBuilder n2 root) := by
  have key : ∀ (n : String) (tree : List TDir),
      eraseGen (runBuilder n (some tree)) =
        (match buildIndex (scanTemplates (initRegistry "") tree) with
         | none => RunResult.crashed
         | some reg2 =>
           match genSnippet reg2 with
           | none => RunResult.crashed
           | some _ => RunResult.ok { reg2 with generated := "" }) := by
    intro n tree
    rw [runBuilder]
    rw [show initRegistry n = { initRegistry "" with generated := n } from rfl]
    rw [scanTemplates_gen]
    rw [buildIndex_gen]
    cases hb : buildIndex (scanTemplates (initRegistry "") tree) with
    | none => rfl
    | some reg2 =>
      dsimp only [Option.map]
      rw [genSnippet_gen]
      cases hs : genSnippet reg2 with
      | none => rfl
      | some u => rfl
  cases root with
  | none => rfl
  | some tree => rw [key n1 tree, key n2 tree]

/-!
## Well-formed trees make the whole builder run succeed (C3)
-/

theorem addToBucket_prop {P Q : Yaml → Prop} (bs : List (Yaml × List Yaml))
    (k v : Yaml)
    (hbs : ∀ kv ∈ bs, P kv.1 ∧ ∀ n ∈ kv.2, Q n) (hk : P k) (hv : Q v) :
    ∀ kv ∈ addToBucket bs k v, P kv.1 ∧ ∀ n ∈ kv.2, Q n := by
  intro kv hkv
  unfold addToBucket at hkv
  by_cases hmem : bs.any (fun kv => kv.1 = k) = true
  · rw [if_pos hmem] at hkv
    rcases List.mem_map.mp hkv with ⟨kv0, hkv0, heq⟩
    by_cases he : kv0.1 = k
    · rw [if_pos he] at heq
      subst heq
      refine ⟨(hbs kv0 hkv0).1, ?_⟩
      intro n hn
      rcases List.mem_append.mp hn with hn1 | hn2
      · exact (hbs kv0 hkv0).2 n hn1
      · rw [List.mem_singleton.mp hn2]
        exact hv
    · rw [if_neg he] at heq
      subst heq
      exact hbs kv0 hkv0
  · rw [if_neg hmem] at hkv
    rcases List.mem_append.mp hkv with h | h
    · exact hbs kv h
    · rw [List.mem_singleton.mp h]
      exact ⟨hk, fun n hn => by rw [List.mem_singleton.mp hn]; exact hv⟩

theorem setAdd_prop {P : Yaml → Prop} (s : List Yaml) (x : Yaml)
    (hs : ∀ a ∈ s, P a) (hx : P x) : ∀ a ∈ setAdd s x, P a := by
  intro a ha
  unfold setAdd at ha
  by_cases hmem : x ∈ s
  · rw [if_pos hmem] at ha
    exact hs a ha
  · rw [if_neg hmem] at ha
    rcases List.mem_append.mp ha with h | h
    · exact hs a h
    · rw [List.mem_singleton.mp h]
      exact hx

theorem categoriesStep_cases (reg : Registry) (m n : Yaml) (reg2 : Registry)
    (h : categoriesStep reg m n = some reg2) :
    reg2 = reg ∨
    ∃ cv p, dictGetD m "categories" (Yaml.map []) = some cv ∧
      dictGet cv "primary" = some p ∧ pyTruthy p = true ∧ pyHashable p = true ∧
      reg2 = { reg with categories := addToBucket reg.categories p n } := by
  unfold categoriesStep at h
  cases hc : dictGetD m "categories" (Yaml.map []) with
  | none => rw [hc] at h; cases h
  | some cv =>
    rw [hc] at h
    simp only [Option.bind_eq_bind, Option.some_bind] at h
    cases hp : dictGet cv "primary" with
    | none => rw [hp] at h; cases h
    | some p =>
      rw [hp] at h
      simp only [Option.some_bind] at h
      by_cases ht : pyTruthy p = true
      · rw [if_pos ht] at h
        by_cases hh : pyHashable p = true
        · rw [if_pos hh] at h
          exact Or.inr ⟨cv, p, rfl, hp, ht, hh, (Option.some_inj.mp h).symm⟩
        · rw [if_neg hh] at h
          cases h
      · rw [if_neg ht] at h
        exact Or.inl (Option.some_inj.mp h).symm

theorem tagsLoop_tags_prop {Q : Yaml → Prop} (n : Yaml) (hn : Q n) :
    ∀ (ts : List Yaml) (reg : Registry),
    (∀ kv ∈ reg.tags, ∀ x ∈ kv.2, Q x) →
    ∀ kv ∈ (tagsLoop reg n ts).1.tags, ∀ x ∈ kv.2, Q x := by
  intro ts
  induction ts with
  | nil => intro reg hreg; exact hreg
  | cons t ts ih =>
    intro reg hreg
    by_cases hh : pyHashable t = true
    · simp only [tagsLoop, if_pos hh]
      apply ih
      intro kv hkv
      exact (addToBucket_prop (P := fun _ => True) (Q := Q) reg.tags t n
        (fun kv2 hkv2 => ⟨trivial, hreg kv2 hkv2⟩) trivial hn kv hkv).2
    · simp only [tagsLoop, if_neg hh]
      exact hreg

theorem authorStep_cases (reg : Registry) (m : Yaml) :
    (authorStep reg m).1 = reg ∨
    ∃ an, (dictGetD m "author" (Yaml.map [])).bind (fun a => dictGet a "name") = some an ∧
      pyTruthy an = true ∧ pyHashable an = true ∧
      (authorStep reg m).1 = { reg with authors := setAdd reg.authors an } := by
  cases h : (dictGetD m "author" (Yaml.map [])).bind (fun a => dictGet a "name") with
  | none => left; simp [authorStep, h]
  | some an =>
    by_cases ht : pyTruthy an = true
    · by_cases hh : pyHashable an = true
      · right
        exact ⟨an, rfl, ht, hh, by simp [authorStep, h, ht, hh]⟩
      · left
        simp [authorStep, h, ht, hh]
    · left
      simp [authorStep, h, ht]

theorem tagsStep_tags_prop {Q : Yaml → Prop} (reg : Registry) (m n : Yaml)
    (hn : Q n) (hreg : ∀ kv ∈ reg.tags, ∀ x ∈ kv.2, Q x) :
    ∀ kv ∈ (tagsStep reg m n).1.tags, ∀ x ∈ kv.2, Q x := by
  cases ht : dictGetD m "tags" (Yaml.list []) with
  | none => simp only [tagsStep, ht]; exact hreg
  | some tv =>
    cases hi : pyIter tv with
    | none => simp only [tagsStep, ht, hi]; exact hreg
    | some ts =>
      simp only [tagsStep, ht, hi]
      exact tagsLoop_tags_prop n hn ts reg hreg

theorem wfCats_primary_str (kvs : List (String × Yaml))
    (hcats : wfCatsKvs kvs = true) (p : Yaml)
    (hp : dictGet ((alookup kvs "categories").getD (Yaml.map [])) "primary" = some p)
    (htr : pyTruthy p = true) : p.isStr = true := by
  cases hcl : alookup kvs "categories" with
  | none =>
    rw [hcl] at hp
    simp only [Option.getD_none, dictGet, alookup] at hp
    obtain rfl := Option.some_inj.mp hp
    simp [pyTruthy] at htr
  | some cvv =>
    rw [hcl] at hp
    simp only [Option.getD_some] at hp
    cases cvv with
    | map ckvs =>
      rw [dictGet] at hp
      cases hpp : alookup ckvs "primary" with
      | none =>
        rw [hpp] at hp
        simp only [Option.getD_none] at hp
        obtain rfl := Option.some_inj.mp hp
        simp [pyTruthy] at htr
      | some p0 =>
        rw [hpp] at hp
        simp only [Option.getD_some] at hp
        obtain rfl := Option.some_inj.mp hp
        simp only [wfCatsKvs, hcl, hpp] at hcats
        rcases (Bool.or_eq_true _ _).mp hcats with hc2 | hc2
        · exact absurd htr (by simp_all)
        · exact hc2
    | null => simp [wfCatsKvs, hcl] at hcats
    | int k2 => simp [wfCatsKvs, hcl] at hcats
    | str s3 => simp [wfCatsKvs, hcl] at hcats
    | list xs2 => simp [wfCatsKvs, hcl] at hcats

theorem wfAuthor_name_str (kvs : List (String × Yaml))
    (hauth : wfAuthorKvs kvs = true) (an : Yaml)
    (han : ((dictGetD (Yaml.map kvs) "author" (Yaml.map [])).bind
      (fun a => dictGet a "name")) = some an)
    (htr : pyTruthy an = true) : an.isStr = true := by
  rw [dictGetD] at han
  simp only [Option.some_bind] at han
  cases hal : alookup kvs "author" with
  | none =>
    rw [hal] at han
    simp only [Option.getD_none, dictGet, alookup] at han
    obtain rfl := Option.some_inj.mp han
    simp [pyTruthy] at htr
  | some av =>
    rw [hal] at han
    simp only [Option.getD_some] at han
    cases av with
    | map akvs =>
      rw [dictGet] at han
      cases hnn : alookup akvs "name" with
      | none =>
        rw [hnn] at han
        simp only [Option.getD_none] at han
        obtain rfl := Option.some_inj.mp han
        simp [pyTruthy] at htr
      | some n0 =>
        rw [hnn] at han
        simp only [Option.getD_some] at han
        obtain rfl := Option.some_inj.mp han
        simp only [wfAuthorKvs, hal, hnn] at hauth
        rcases (Bool.or_eq_true _ _).mp hauth with hc2 | hc2
        · exact absurd htr (by simp_all)
        · exact hc2
    | null => simp [dictGet] at han
    | int k2 => simp [dictGet] at han
    | str s3 => simp [dictGet] at han
    | list xs2 => simp [dictGet] at han

theorem processTemplate_regWF (reg : Registry) (doc : Option Yaml)
    (hdoc : wfDoc doc = true) (hreg : regWF reg) :
    regWF (processTemplate reg doc).1 := by
  match doc with
  | none => exact hreg
  | some Yaml.null => simp [wfDoc, wfMapDoc] at hdoc
  | some (Yaml.int k) => simp [wfDoc, wfMapDoc] at hdoc
  | some (Yaml.str s2) => simp [wfDoc, wfMapDoc] at hdoc
  | some (Yaml.list xs) => simp [wfDoc, wfMapDoc] at hdoc
  | some (Yaml.map kvs) =>
    simp only [wfDoc, wfMapDoc, Bool.and_eq_true] at hdoc
    obtain ⟨⟨⟨⟨⟨hn, hcats⟩, htags⟩, hvers⟩, hauth⟩, hfeat⟩ := hdoc
    cases hf : pyLen ((alookup kvs "features").getD (Yaml.list [])) with
    | none =>
      have hE : mkEntry (Yaml.map kvs) = none := by rw [mkEntry_map, hf]; rfl
      simp [processTemplate, hE]
      exact hreg
    | some fl =>
      set e : Entry :=
        { name := (alookup kvs "name").getD Yaml.null,
          displayName := (alookup kvs "displayName").getD Yaml.null,
          description := (alookup kvs "description").getD Yaml.null,
          author := (alookup kvs "author").getD Yaml.null,
          categories := (alookup kvs "categories").getD Yaml.null,
          tags := (alookup kvs "tags").getD (Yaml.list []),
          version := (alookup kvs "version").getD Yaml.null,
          versions := (alookup kvs "versions").getD Yaml.null,
          features := fl,
          requirements := (alookup kvs "requirements").getD Yaml.null,
          complexity := (alookup kvs "complexity").getD Yaml.null,
          path := "templates/" ++ pyStr ((alookup kvs "name").getD Yaml.null) }
        with he
      have hE : mkEntry (Yaml.map kvs) = some e := by
        rw [mkEntry_map, hf]
        rfl
      have hename : e.name.isStr = true := by
        rw [he]
        cases hnm : alookup kvs "name" with
        | none => rw [wfNameKvs, hnm] at hn; cases hn
        | some v =>
          cases v <;> rw [wfNameKvs, hnm] at hn <;> first | rfl | (exact absurd hn (by simp))
      rw [processTemplate_some_entry reg (Yaml.map kvs) e hE]
      obtain ⟨hA, hB, hC, hD⟩ := hreg
      have hreg1 : regWF { reg with templates := reg.templates ++ [e] } := by
        refine ⟨?_, ?_, hC, hD⟩
        · intro y hy
          rcases List.mem_map.mp hy with ⟨e2, he2, rfl⟩
          rcases List.mem_append.mp he2 with h2 | h2
          · exact hA e2.name (List.mem_map.mpr ⟨e2, h2, rfl⟩)
          · rw [List.mem_singleton.mp h2]
            exact hename
        · intro kv hkv
          refine ⟨(hB kv hkv).1, ?_⟩
          intro n2 hn2
          have := (hB kv hkv).2 n2 hn2
          rcases List.mem_map.mp this with ⟨e2, he2, rfl⟩
          exact List.mem_map.mpr ⟨e2, List.mem_append.mpr (Or.inl he2), rfl⟩
      set reg1 : Registry := { reg with templates := reg.templates ++ [e] } with hreg1def
      cases hcs : categoriesStep reg1 (Yaml.map kvs) e.name with
      | none => exact hreg1
      | some reg2 =>
        dsimp only
        have hreg2 : regWF reg2 := by
          rcases categoriesStep_cases reg1 (Yaml.map kvs) e.name reg2 hcs with
            heq2 | ⟨cv, p, hcv, hp, htr, hha, heq2⟩
          · rw [heq2]; exact hreg1
          · have hp2 : dictGet ((alookup kvs "categories").getD (Yaml.map [])) "primary"
                = some p := by
              rw [dictGetD] at hcv
              rw [← Option.some_inj.mp hcv] at hp
              exact hp
            have hpstr : p.isStr = true := wfCats_primary_str kvs hcats p hp2 htr
            obtain ⟨h1A, h1B, h1C, h1D⟩ := hreg1
            rw [heq2]
            refine ⟨h1A, ?_, h1C, h1D⟩
            intro kv hkv
            exact addToBucket_prop (P := fun y => y.isStr = true)
              (Q := fun y => y ∈ entryNames reg1) reg1.categories p e.name
              h1B hpstr (List.mem_map.mpr ⟨e, List.mem_append.mpr
                (Or.inr (List.mem_singleton.mpr rfl)), rfl⟩) kv hkv
        rcases hp2 : tagsStep reg2 (Yaml.map kvs) e.name with ⟨reg3, b⟩
        have hreg3 : regWF reg3 := by
          have hfields := tagsStep_fields reg2 (Yaml.map kvs) e.name
          rw [hp2] at hfields
          simp only at hfields
          obtain ⟨h2A, h2B, h2C, h2D⟩ := hreg2
          have htprop := tagsStep_tags_prop (Q := fun y => y.isStr = true)
            reg2 (Yaml.map kvs) e.name hename h2C
          rw [hp2] at htprop
          rw [hfields]
          exact ⟨h2A, h2B, htprop, h2D⟩
        cases b with
        | true => exact hreg3
        | false =>
          dsimp only
          rcases hq : statsStep reg3 (Yaml.map kvs) with ⟨reg4, b2⟩
          have hreg4 : regWF reg4 := by
            have hfields := statsStep_fields reg3 (Yaml.map kvs)
            rw [hq] at hfields
            simp only at hfields
            rw [hfields]
            exact hreg3
          cases b2 with
          | true => exact hreg4
          | false =>
            dsimp only
            rcases authorStep_cases reg4 (Yaml.map kvs) with heq | ⟨an, han, htr, hha, heq⟩
            · rw [heq]; exact hreg4
            · have hanstr : an.isStr = true := wfAuthor_name_str kvs hauth an han htr
              rw [heq]
              obtain ⟨h4A, h4B, h4C, h4D⟩ := hreg4
              exact ⟨h4A, h4B, h4C,
                setAdd_prop (P := fun y => y.isStr = true) reg4.authors an h4D hanstr⟩

theorem pyComparable_str (a b : Yaml) (ha : a.isStr = true) (hb : b.isStr = true) :
    pyComparable a b = true := by
  cases a <;> cases b <;> simp_all [Yaml.isStr, pyComparable]

theorem allComp_of_str (l : List Yaml) (h : ∀ y ∈ l, y.isStr = true) :
    allComp l = true := by
  induction l with
  | nil => rfl
  | cons x xs ih =>
    rw [allComp, Bool.and_eq_true]
    constructor
    · exact List.all_eq_true.mpr (fun y hy =>
        pyComparable_str x y (h x (List.mem_cons_self x xs))
          (h y (List.mem_cons_of_mem x hy)))
    · exact ih (fun y hy => h y (List.mem_cons_of_mem x hy))

theorem sortYL_isSome_of_str (xs : List Yaml) (h : ∀ y ∈ xs, y.isStr = true) :
    (sortYL xs).isSome = true := by
  rw [sortYL, if_pos (allComp_of_str xs h)]
  rfl

theorem sortBuckets_isSome (bs : List (Yaml × List Yaml))
    (h : ∀ kv ∈ bs, ∀ n ∈ kv.2, n.isStr = true) :
    (sortBuckets bs).isSome = true := by
  induction bs with
  | nil => rfl
  | cons kv bs ih =>
    obtain ⟨l, hl⟩ := Option.isSome_iff_exists.mp
      (sortYL_isSome_of_str kv.2 (h kv (List.mem_cons_self kv bs)))
    obtain ⟨rest, hrest⟩ := Option.isSome_iff_exists.mp
      (ih (fun kv2 hkv2 => h kv2 (List.mem_cons_of_mem kv hkv2)))
    rw [sortBuckets]
    simp [hl, hrest]

theorem regWF_buildIndex_snippet (reg : Registry) (h : regWF reg) :
    ∃ reg2, buildIndex reg = some reg2 ∧ genSnippet reg2 = some () := by
  obtain ⟨hA, hB, hC, hD⟩ := h
  have hcomp : allComp (reg.templates.map (fun e => e.name)) = true :=
    allComp_of_str _ hA
  obtain ⟨cats, hcats⟩ := Option.isSome_iff_exists.mp
    (sortBuckets_isSome reg.categories
      (fun kv hkv n hn => hA n ((hB kv hkv).2 n hn)))
  obtain ⟨tags, htags⟩ := Option.isSome_iff_exists.mp
    (sortBuckets_isSome reg.tags hC)
  obtain ⟨auth, hauth⟩ := Option.isSome_iff_exists.mp
    (sortYL_isSome_of_str reg.authors hD)
  set reg2 : Registry :=
    { reg with templates := isort entLe reg.templates,
               categories := cats, tags := tags, authors := auth } with hreg2def
  refine ⟨reg2, ?_, ?_⟩
  · simp only [buildIndex, if_pos hcomp, hcats, htags, hauth]
  · have hkeys : ∀ kv ∈ cats, kv.1.isStr = true := by
      intro kv hkv
      rcases sortBuckets_some reg.categories cats hcats kv hkv with ⟨kv0, hkv0, heq, -⟩
      rw [heq]
      exact (hB kv0 hkv0).1
    have hfind : ∀ kv ∈ cats, ∀ n ∈ kv.2,
        ((isort entLe reg.templates).find? (fun t => t.name = n)).isSome = true := by
      intro kv hkv n hn
      rcases sortBuckets_some reg.categories cats hcats kv hkv with ⟨kv0, hkv0, -, hsort⟩
      have hn0 : n ∈ kv0.2 := (sortYL_mem kv0.2 kv.2 hsort n).mp hn
      have hmem : n ∈ entryNames reg := (hB kv0 hkv0).2 n hn0
      rcases List.mem_map.mp hmem with ⟨e2, he2, rfl⟩
      apply List.find?_isSome.mpr
      exact ⟨e2, (mem_isort entLe reg.templates e2).mpr he2, by simp⟩
    rw [genSnippet]
    rw [if_pos ?_]
    rw [Bool.and_eq_true]
    constructor
    · exact allComp_of_str _ (by
        intro y hy
        rcases List.mem_map.mp hy with ⟨kv, hkv, rfl⟩
        exact hkeys kv hkv)
    · refine List.all_eq_true.mpr (fun kv hkv => ?_)
      rw [snippetCatOk, Bool.and_eq_true]
      exact ⟨hkeys kv hkv, List.all_eq_true.mpr (fun n hn => hfind kv hkv n hn)⟩

theorem scanTemplates_regWF : ∀ (tree : List TDir) (reg : Registry),
    wfTree tree = true → regWF reg → regWF (scanTemplates reg tree) := by
  intro tree
  induction tree with
  | nil => intro reg _ hr; exact hr
  | cons d ds ih =>
    intro reg hw hr
    rw [wfTree, List.all_cons, Bool.and_eq_true] at hw
    rw [show scanTemplates reg (d :: ds) = scanTemplates (scanStep reg d) ds from rfl]
    apply ih (scanStep reg d) hw.2
    rw [scanStep]
    by_cases hh : strStartsWith d.dname "." = true
    · rw [if_pos hh]; exact hr
    · rw [if_neg hh]
      cases hd : d.metadata with
      | none => exact hr
      | some doc =>
        apply processTemplate_regWF reg doc _ hr
        rw [hd] at hw
        exact hw.1

theorem regWF_init (now : String) : regWF (initRegistry now) := by
  refine ⟨?_, ?_, ?_, ?_⟩ <;> intro x hx <;> simp [initRegistry, entryNames] at hx

/-- C3 counterexample: a root that exists, with two parseable
descriptors whose entry names (`None` and `"a"`) are incomparable — the
`build_index` sort raises an uncaught `TypeError` and the run aborts
instead of completing and returning success. -/
theorem claim_c3_counterexample :
    runBuilder "now" (some c3crashTree) = RunResult.crashed := by
  decide

/-- C3 (amended): `run()` returns its dedicated non-zero failure code
exactly when the templates root does not exist; a malformed descriptor
can still crash the run after scanning (an exception escaping
`build_index` or the snippet is caught nowhere), but for any existing
root whose descriptors are each either unparseable or well-formed
mappings (string name; mapping-or-absent categories with string truthy
primary; string-list-or-absent tags; mapping-or-absent versions and
author with string author name; sized-or-absent features), the run
completes scan, index build, write and summary generation and returns
success. -/
theorem claim_c3_run_outcomes (now : String) (tree : List TDir)
    (h : wfTree tree = true) :
    runBuilder now none = RunResult.missingRoot ∧
    (runBuilder now (some tree)).isOk = true := by
  refine ⟨rfl, ?_⟩
  have hwf : regWF (scanTemplates (initRegistry now) tree) :=
    scanTemplates_regWF tree (initRegistry now) h (regWF_init now)
  obtain ⟨reg2, hb, hs⟩ := regWF_buildIndex_snippet _ hwf
  rw [runBuilder]
  simp only [hb, hs]
  rfl

/-- Witness for the amended C3 on a four-directory tree (one
well-formed template, one hidden directory, one directory without a
descriptor, one unparseable descriptor). -/
theorem claim_c3_run_outcomes_witness :
    runBuilder "w" none = RunResult.missingRoot ∧
    (runBuilder "w" (some c3tree)).isOk = true :=
  claim_c3_run_outcomes "w" c3tree (by decide)

/-!
## Each validator check only appends its own findings (C7)
-/

theorem report_append_assoc (a b c : Report) :
    (a.append b).append c = a.append (b.append c) := by
  simp [Report.append, List.append_assoc]

theorem report_append_empty (a : Report) : a.append emptyReport = a := by
  simp [Report.append, emptyReport]

theorem report_empty_append (a : Report) : emptyReport.append a = a := by
  simp [Report.append, emptyReport]

theorem exceptBind_error {α β : Type} (e : α) (g : β → Except α β) :
    ((Except.error e : Except α β) >>= g) = Except.error e := rfl

theorem appends_foldl {α : Type} (g : Report → α → Report)
    (h : ∀ a, Appends (fun r => g r a)) :
    ∀ l : List α, Appends (fun r => l.foldl g r) := by
  intro l
  have hb : ∀ (a2 : α) (x : Report), g x a2 = x.append (g emptyReport a2) := h
  induction l with
  | nil =>
    intro rep
    show List.foldl g rep [] = rep.append (List.foldl g emptyReport [])
    simp only [List.foldl_nil]
    rw [report_append_empty]
  | cons a l ih =>
    intro rep
    have ihb : ∀ x : Report,
        List.foldl g x l = x.append (List.foldl g emptyReport l) := ih
    show List.foldl g rep (a :: l) = rep.append (List.foldl g emptyReport (a :: l))
    simp only [List.foldl_cons]
    rw [ihb (g rep a), hb a rep, ihb (g emptyReport a), report_append_assoc]

theorem exceptAppends_foldlM {α : Type} (g : Report → α → Except Report Report)
    (h : ∀ a, ExceptAppends (fun r => g r a)) (l : List α) :
    ExceptAppends (fun r => l.foldlM g r) := by
  have hb : ∀ (a2 : α) (x : Report), g x a2 =
      match g emptyReport a2 with
      | Except.ok d => Except.ok (x.append d)
      | Except.error d => Except.error (x.append d) := h
  induction l with
  | nil =>
    intro rep
    show (Except.ok rep : Except Report Report) =
      match (Except.ok emptyReport : Except Report Report) with
      | Except.ok d => Except.ok (rep.append d)
      | Except.error d => Except.error (rep.append d)
    dsimp only
    rw [report_append_empty]
  | cons a l ih =>
    intro rep
    have ihb : ∀ x : Report, List.foldlM g x l =
        match List.foldlM g emptyReport l with
        | Except.ok d => Except.ok (x.append d)
        | Except.error d => Except.error (x.append d) := ih
    show List.foldlM g rep (a :: l) =
      match List.foldlM g emptyReport (a :: l) with
      | Except.ok d => Except.ok (rep.append d)
      | Except.error d => Except.error (rep.append d)
    simp only [List.foldlM_cons]
    cases hg : g emptyReport a with
    | error d =>
      rw [hb a rep, hg]
      dsimp only
      rw [exceptBind_error, exceptBind_error]
    | ok d =>
      rw [hb a rep, hg]
      dsimp only
      rw [exceptBind_ok, exceptBind_ok, ihb (rep.append d), ihb d]
      cases hl : l.foldlM g emptyReport with
      | error d2 =>
        dsimp only
        rw [report_append_assoc]
      | ok d2 =>
        dsimp only
        rw [report_append_assoc]

theorem exceptAppends_bind (f g : Report → Except Report Report)
    (hf : ExceptAppends f) (hg : ExceptAppends g) :
    ExceptAppends (fun r => f r >>= g) := by
  intro rep
  show f rep >>= g =
    match f emptyReport >>= g with
    | Except.ok d => Except.ok (rep.append d)
    | Except.error d => Except.error (rep.append d)
  rw [hf rep]
  cases hfe : f emptyReport with
  | error d =>
    dsimp only
    rw [exceptBind_error, exceptBind_error]
  | ok d =>
    dsimp only
    rw [exceptBind_ok, exceptBind_ok, hg (rep.append d), hg d]
    cases hge : g emptyReport with
    | error d2 =>
      dsimp only
      rw [report_append_assoc]
    | ok d2 =>
      dsimp only
      rw [report_append_assoc]

theorem requiredFieldsStep_appends (m : Yaml) : ExceptAppends (requiredFieldsStep m) := by
  apply exceptAppends_foldlM
  intro f rep
  cases hc : pyContainsStr m f with
  | none => simp [hc, report_append_empty]
  | some b =>
    cases b with
    | true => simp [hc, report_append_empty]
    | false => simp [hc, addError, Report.append, emptyReport]

theorem authorCheckStep_appends (m : Yaml) : ExceptAppends (authorCheckStep m) := by
  intro rep
  cases h1 : pyContainsStr m "author" with
  | none => simp [authorCheckStep, h1, report_append_empty]
  | some b =>
    cases b with
    | false => simp [authorCheckStep, h1, report_append_empty]
    | true =>
      cases h2 : pySubscript m "author" with
      | none => simp [authorCheckStep, h1, h2, report_append_empty]
      | some av =>
        by_cases h3 : av.isMap = true
        · cases h4 : pyContainsStr av "name" with
          | none => simp [authorCheckStep, h1, h2, h3, h4, report_append_empty]
          | some b2 =>
            cases b2 with
            | true => simp [authorCheckStep, h1, h2, h3, h4, report_append_empty]
            | false =>
              simp [authorCheckStep, h1, h2, h3, h4, addError, Report.append, emptyReport]
        · simp only [Bool.not_eq_true] at h3
          simp [authorCheckStep, h1, h2, h3, addError, Report.append, emptyReport]

theorem categoriesCheckStep_appends (m : Yaml) : ExceptAppends (categoriesCheckStep m) := by
  intro rep
  cases h1 : pyContainsStr m "categories" with
  | none => simp [categoriesCheckStep, h1, report_append_empty]
  | some b =>
    cases b with
    | false => simp [categoriesCheckStep, h1, report_append_empty]
    | true =>
      cases h2 : pySubscript m "categories" with
      | none => simp [categoriesCheckStep, h1, h2, report_append_empty]
      | some cv =>
        cases h3 : pyContainsStr cv "primary" with
        | none => simp [categoriesCheckStep, h1, h2, h3, report_append_empty]
        | some b2 =>
          cases b2 with
          | true => simp [categoriesCheckStep, h1, h2, h3, report_append_empty]
          | false =>
            simp [categoriesCheckStep, h1, h2, h3, addError, Report.append, emptyReport]

theorem versionCheckStep_appends (m : Yaml) : ExceptAppends (versionCheckStep m) := by
  intro rep
  cases h1 : pyContainsStr m "version" with
  | none => simp [versionCheckStep, h1, report_append_empty]
  | some b =>
    cases b with
    | false => simp [versionCheckStep, h1, report_append_empty]
    | true =>
      cases h2 : pySubscript m "version" with
      | none => simp [versionCheckStep, h1, h2, report_append_empty]
      | some vv =>
        cases h3 : dictGet vv "latest" with
        | none => simp [versionCheckStep, h1, h2, h3, report_append_empty]
        | some latest =>
          by_cases h4 : pyTruthy latest = true <;>
          [skip;
           simp only [Bool.not_eq_true] at h4] <;>
          · cases h5 : pyContainsStr m "versions" with
            | none =>
              simp [versionCheckStep, h1, h2, h3, h4, h5, addError,
                Report.append, emptyReport]
            | some b2 =>
              cases b2 with
              | false =>
                simp [versionCheckStep, h1, h2, h3, h4, h5, addError,
                  Report.append, emptyReport]
              | true =>
                cases h6 : pySubscript m "versions" with
                | none =>
                  simp [versionCheckStep, h1, h2, h3, h4, h5, h6, addError,
                    Report.append, emptyReport]
                | some vsv =>
                  cases h7 : pyContainsY vsv latest with
                  | none =>
                    simp [versionCheckStep, h1, h2, h3, h4, h5, h6, h7, addError,
                      Report.append, emptyReport]
                  | some b3 =>
                    cases b3 with
                    | true =>
                      simp [versionCheckStep, h1, h2, h3, h4, h5, h6, h7, addError,
                        Report.append, emptyReport]
                    | false =>
                      simp [versionCheckStep, h1, h2, h3, h4, h5, h6, h7, addError,
                        Report.append, emptyReport]

theorem versionEntryStep_appends (kv : String × Yaml) :
    Appends (fun r => versionEntryStep r kv) := by
  by_cases h1 : kv.2.isMap = true
  · have h2 : ∀ rep, versionEntryStep rep kv =
        versionFieldList.foldl (fun r f =>
          match pyContainsStr kv.2 f with
          | some true => r
          | _ => addWarning r ("Version " ++ kv.1 ++ " missing field: " ++ f)) rep := by
      intro rep
      simp [versionEntryStep, h1]
    have hstep : ∀ f, Appends (fun r =>
        match pyContainsStr kv.2 f with
        | some true => r
        | _ => addWarning r ("Version " ++ kv.1 ++ " missing field: " ++ f)) := by
      intro f rep2
      cases hc : pyContainsStr kv.2 f with
      | none => simp [hc, addWarning, Report.append, emptyReport]
      | some b =>
        cases b with
        | true => simp [hc, report_append_empty]
        | false => simp [hc, addWarning, Report.append, emptyReport]
    intro rep
    show versionEntryStep rep kv = rep.append (versionEntryStep emptyReport kv)
    rw [h2 rep, h2 emptyReport]
    exact appends_foldl _ hstep versionFieldList rep
  · simp only [Bool.not_eq_true] at h1
    intro rep
    simp [versionEntryStep, h1, addError, Report.append, emptyReport]

theorem versionsEntriesStep_appends (m : Yaml) : ExceptAppends (versionsEntriesStep m) := by
  intro rep
  cases h1 : pyContainsStr m "versions" with
  | none => simp [versionsEntriesStep, h1, report_append_empty]
  | some b =>
    cases b with
    | false => simp [versionsEntriesStep, h1, report_append_empty]
    | true =>
      cases h2 : pySubscript m "versions" with
      | none => simp [versionsEntriesStep, h1, h2, report_append_empty]
      | some vsv =>
        cases h3 : yamlItems vsv with
        | none => simp [versionsEntriesStep, h1, h2, h3, report_append_empty]
        | some kvs =>
          simp only [versionsEntriesStep, h1, h2, h3]
          exact congrArg Except.ok
            (appends_foldl versionEntryStep versionEntryStep_appends kvs rep)

theorem recommendedStep_appends (m : Yaml) : ExceptAppends (recommendedStep m) := by
  apply exceptAppends_foldlM
  intro f rep
  cases hc : pyContainsStr m f with
  | none => simp [hc, report_append_empty]
  | some b =>
    cases b with
    | true => simp [hc, report_append_empty]
    | false => simp [hc, addWarning, Report.append, emptyReport]

theorem infoStep_appends (m : Yaml) : ExceptAppends (infoStep m) := by
  intro rep
  cases h1 : dictGet m "name" with
  | none => simp [infoStep, h1, report_append_empty]
  | some nm =>
    cases h2 : (dictGetD m "version" (Yaml.map [])).bind (fun v => dictGet v "latest") with
    | none => simp [infoStep, h1, h2, addInfo, Report.append, emptyReport]
    | some lv =>
      cases h3 : (dictGetD m "versions" (Yaml.map [])).bind pyLen with
      | none => simp [infoStep, h1, h2, h3, addInfo, Report.append, emptyReport]
      | some k => simp [infoStep, h1, h2, h3, addInfo, Report.append, emptyReport]

theorem metaBody_appends (m : Yaml) : ExceptAppends (metaBody m) :=
  exceptAppends_bind _ _ (requiredFieldsStep_appends m)
    (exceptAppends_bind _ _ (authorCheckStep_appends m)
      (exceptAppends_bind _ _ (categoriesCheckStep_appends m)
        (exceptAppends_bind _ _ (versionCheckStep_appends m)
          (exceptAppends_bind _ _ (versionsEntriesStep_appends m)
            (exceptAppends_bind _ _ (recommendedStep_appends m)
              (infoStep_appends m))))))

theorem validateMetadata_appends (doc : Option Yaml) : Appends (validateMetadata doc) := by
  cases doc with
  | none =>
    intro rep
    simp [validateMetadata, addError, Report.append, emptyReport]
  | some m =>
    intro rep
    show (match metaBody m rep with
          | Except.ok r => r
          | Except.error r => addError r readFailMsg) =
      rep.append (match metaBody m emptyReport with
          | Except.ok r => r
          | Except.error r => addError r readFailMsg)
    rw [metaBody_appends m rep]
    cases hb : metaBody m emptyReport with
    | ok d => rfl
    | error d => simp [addError, Report.append, emptyReport, List.append_assoc]

theorem appends_comp (f g : Report → Report) (hf : Appends f) (hg : Appends g) :
    Appends (fun r => g (f r)) := by
  intro rep
  show g (f rep) = rep.append (g (f emptyReport))
  rw [hf rep, hg (rep.append (f emptyReport)), hg (f emptyReport), report_append_assoc]

theorem appends_addInfo (msg : String) : Appends (fun r => addInfo r msg) := by
  intro rep
  simp [addInfo, Report.append, emptyReport]

theorem chartBody_appends (c : Yaml) (v : String) : ExceptAppends (chartBody c v) := by
  intro rep
  cases h1 : pyContainsStr c "dependencies" with
  | none => simp [chartBody, h1, report_append_empty]
  | some b =>
    cases b with
    | false => simp [chartBody, h1, addWarning, Report.append, emptyReport]
    | true =>
      cases h2 : dictGetD c "dependencies" (Yaml.list []) with
      | none => simp [chartBody, h1, h2, report_append_empty]
      | some dv =>
        cases h3 : pyIter dv with
        | none => simp [chartBody, h1, h2, h3, report_append_empty]
        | some ds =>
          cases h4 : depHasPolicyLib ds with
          | none => simp [chartBody, h1, h2, h3, h4, report_append_empty]
          | some b2 =>
            cases b2 with
            | true => simp [chartBody, h1, h2, h3, h4, report_append_empty]
            | false =>
              simp [chartBody, h1, h2, h3, h4, addError, Report.append, emptyReport]

theorem chartCheck_appends (v : VersionDir) : Appends (chartCheck v) := by
  cases hc : v.chart with
  | none =>
    intro rep
    simp [chartCheck, hc, report_append_empty]
  | some parse =>
    cases parse with
    | none =>
      intro rep
      simp [chartCheck, hc, addError, Report.append, emptyReport]
    | some c =>
      intro rep
      simp only [chartCheck, hc]
      rw [chartBody_appends c v.vname rep]
      cases hb : chartBody c v.vname emptyReport with
      | ok d => rfl
      | error d => simp [addError, Report.append, emptyReport, List.append_assoc]

theorem versionDirCheck_appends (v : VersionDir) :
    Appends (fun r => versionDirCheck r v) := by
  have h1 : Appends (fun r => if v.chart.isSome then r
      else addError r ("Version " ++ v.vname ++ " missing required file: Chart.yaml")) := by
    intro rep
    by_cases hc : v.chart.isSome = true <;>
      simp [hc, addError, Report.append, emptyReport, report_append_empty]
  have h2 : Appends (fun r => if v.hasValues then r
      else addError r ("Version " ++ v.vname ++ " missing required file: values.yaml")) := by
    intro rep
    by_cases hc : v.hasValues = true <;>
      simp [hc, addError, Report.append, emptyReport, report_append_empty]
  have h4 : Appends (fun r => if v.hasConverters then r
      else addWarning r ("Version " ++ v.vname ++ ": No converters directory")) := by
    intro rep
    by_cases hc : v.hasConverters = true <;>
      simp [hc, addWarning, Report.append, emptyReport, report_append_empty]
  have c1 := appends_comp _ _ h1 h2
  have c2 := appends_comp _ _ c1 (chartCheck_appends v)
  have c3 := appends_comp _ _ c2 h4
  have c4 := appends_comp _ _ c3
    (appends_addInfo ("Found version: " ++ v.vname))
  intro rep
  exact c4 rep

theorem versionsFindings_appends (vd : Option (List VersionDir)) :
    Appends (versionsFindings vd) := by
  cases vd with
  | none =>
    intro rep
    simp [versionsFindings, report_append_empty]
  | some vs =>
    cases vs with
    | nil =>
      intro rep
      simp [versionsFindings, addError, Report.append, emptyReport]
    | cons v vs2 =>
      intro rep
      show (v :: vs2).foldl versionDirCheck rep =
        rep.append ((v :: vs2).foldl versionDirCheck emptyReport)
      exact appends_foldl versionDirCheck versionDirCheck_appends (v :: vs2) rep

theorem exampleCheck_appends (ex : String × Option Yaml) :
    Appends (fun r => exampleCheck r ex) := by
  intro rep
  rcases ex with ⟨nm, parse⟩
  cases parse with
  | none => simp [exampleCheck, addError, Report.append, emptyReport]
  | some doc =>
    by_cases hm : doc.isMap = true
    · cases hc : pyContainsStr doc "stack" with
      | none =>
        simp [exampleCheck, hm, hc, addWarning, addInfo, Report.append, emptyReport]
      | some b =>
        cases b with
        | true => simp [exampleCheck, hm, hc, addInfo, Report.append, emptyReport]
        | false =>
          simp [exampleCheck, hm, hc, addWarning, addInfo, Report.append, emptyReport]
    · simp only [Bool.not_eq_true] at hm
      simp [exampleCheck, hm, addError, addInfo, Report.append, emptyReport]

theorem examplesFindings_appends (ed : Option (List (String × Option Yaml))) :
    Appends (examplesFindings ed) := by
  cases ed with
  | none =>
    intro rep
    simp [examplesFindings, report_append_empty]
  | some exs =>
    cases exs with
    | nil =>
      intro rep
      simp [examplesFindings, addWarning, Report.append, emptyReport]
    | cons ex exs2 =>
      intro rep
      show (ex :: exs2).foldl exampleCheck rep =
        rep.append ((ex :: exs2).foldl exampleCheck emptyReport)
      exact appends_foldl exampleCheck exampleCheck_appends (ex :: exs2) rep

/-- C7: the findings of a validation run decompose as the structure
check's findings, followed by the metadata check's, the versions
check's, and the examples check's — each computed from an empty report,
independent of what the earlier checks recorded.  In particular an
error recorded by one check never prevents, or alters, the findings of
the remaining checks. -/
theorem claim_c7_checks_independent (t : TemplateDir) :
    (validateT t).1 =
      (validateStructure t emptyReport).append
        ((metaDelta t.metadataFile).append
          ((versionsFindings t.versionsDir emptyReport).append
            (examplesFindings t.examplesDir emptyReport))) := by
  have h2 : (match t.metadataFile with
      | none => validateStructure t emptyReport
      | some doc => validateMetadata doc (validateStructure t emptyReport)) =
      (validateStructure t emptyReport).append (metaDelta t.metadataFile) := by
    cases hmf : t.metadataFile with
    | none =>
      rw [metaDelta, report_append_empty]
    | some doc =>
      rw [metaDelta]
      exact validateMetadata_appends doc _
  show examplesFindings t.examplesDir (versionsFindings t.versionsDir
    (match t.metadataFile with
     | none => validateStructure t emptyReport
     | some doc => validateMetadata doc (validateStructure t emptyReport))) = _
  rw [h2,
    versionsFindings_appends t.versionsDir
      ((validateStructure t emptyReport).append (metaDelta t.metadataFile)),
    examplesFindings_appends t.examplesDir
      (((validateStructure t emptyReport).append (metaDelta t.metadataFile)).append
        (versionsFindings t.versionsDir emptyReport)),
    report_append_assoc, report_append_assoc]

/-!
## The latest-not-in-versions scenario (C8)
-/

theorem alookup_any (kvs : List (String × Yaml)) (k : String) :
    kvs.any (fun kv => kv.1 = k) = (alookup kvs k).isSome := by
  induction kvs with
  | nil => rfl
  | cons kv kvs ih =>
    by_cases h : kv.1 = k
    · simp [alookup, h]
    · simp [alookup, h, ih]

theorem mapFoldErr (L : List String) (kvs : List (String × Yaml)) (rep : Report) :
    (L.foldlM (fun r f =>
      match pyContainsStr (Yaml.map kvs) f with
      | none => Except.error r
      | some true => Except.ok r
      | some false => Except.ok (addError r (requiredFieldMsg f))) rep
      : Except Report Report)
    = Except.ok { rep with errors := rep.errors ++
        (L.filter (fun f => !kvs.any (fun kv => kv.1 = f))).map requiredFieldMsg } := by
  induction L generalizing rep with
  | nil =>
    simp only [List.foldlM_nil, List.filter_nil, List.map_nil, List.append_nil]
    rfl
  | cons f L ih =>
    rw [List.foldlM_cons]
    cases hc : kvs.any (fun kv => kv.1 = f) with
    | true =>
      have hstep : (match pyContainsStr (Yaml.map kvs) f with
          | none => (Except.error rep : Except Report Report)
          | some true => Except.ok rep
          | some false => Except.ok (addError rep (requiredFieldMsg f)))
          = Except.ok rep := by
        simp [pyContainsStr, hc]
      rw [hstep, exceptBind_ok, ih rep]
      simp [List.filter_cons, hc]
    | false =>
      have hstep : (match pyContainsStr (Yaml.map kvs) f with
          | none => (Except.error rep : Except Report Report)
          | some true => Except.ok rep
          | some false => Except.ok (addError rep (requiredFieldMsg f)))
          = Except.ok (addError rep (requiredFieldMsg f)) := by
        simp [pyContainsStr, hc]
      rw [hstep, exceptBind_ok, ih (addError rep (requiredFieldMsg f))]
      simp [List.filter_cons, hc, addError]

theorem mapFoldWarn (L : List String) (kvs : List (String × Yaml)) (rep : Report) :
    (L.foldlM (fun r f =>
      match pyContainsStr (Yaml.map kvs) f with
      | none => Except.error r
      | some true => Except.ok r
      | some false => Except.ok (addWarning r (recommendedFieldMsg f))) rep
      : Except Report Report)
    = Except.ok { rep with warnings := rep.warnings ++
        (L.filter (fun f => !kvs.any (fun kv => kv.1 = f))).map recommendedFieldMsg } := by
  induction L generalizing rep with
  | nil =>
    simp only [List.foldlM_nil, List.filter_nil, List.map_nil, List.append_nil]
    rfl
  | cons f L ih =>
    rw [List.foldlM_cons]
    cases hc : kvs.any (fun kv => kv.1 = f) with
    | true =>
      have hstep : (match pyContainsStr (Yaml.map kvs) f with
          | none => (Except.error rep : Except Report Report)
          | some true => Except.ok rep
          | some false => Except.ok (addWarning rep (recommendedFieldMsg f)))
          = Except.ok rep := by
        simp [pyContainsStr, hc]
      rw [hstep, exceptBind_ok, ih rep]
      simp [List.filter_cons, hc]
    | false =>
      have hstep : (match pyContainsStr (Yaml.map kvs) f with
          | none => (Except.error rep : Except Report Report)
          | some true => Except.ok rep
          | some false => Except.ok (addWarning rep (recommendedFieldMsg f)))
          = Except.ok (addWarning rep (recommendedFieldMsg f)) := by
        simp [pyContainsStr, hc]
      rw [hstep, exceptBind_ok, ih (addWarning rep (recommendedFieldMsg f))]
      simp [List.filter_cons, hc, addWarning]

theorem versionEntryStep_errors (rep : Report) (kv : String × Yaml)
    (h : kv.2.isMap = true) : (versionEntryStep rep kv).errors = rep.errors := by
  rw [versionEntryStep]
  simp only [h, Bool.not_true, Bool.false_eq_true, if_false]
  have : ∀ (L : List String) (r : Report),
      (L.foldl (fun r f =>
        match pyContainsStr kv.2 f with
        | some true => r
        | _ => addWarning r ("Version " ++ kv.1 ++ " missing field: " ++ f)) r).errors
      = r.errors := by
    intro L
    induction L with
    | nil => intro r; rfl
    | cons f L ih =>
      intro r
      rw [List.foldl_cons]
      cases hc : pyContainsStr kv.2 f with
      | none => rw [ih]; rfl
      | some b =>
        cases b with
        | true => rw [ih]
        | false => rw [ih]; rfl
  exact this versionFieldList rep

/-- C8: any descriptor mapping with all required top-level fields,
an author mapping containing `name`, a categories mapping containing
`primary`, `version.latest = "2.0"`, and a versions mapping whose only
key is `"1.0"` (with a mapping value) gets exactly one error, stating
that version 2.0 is not found in versions. -/
theorem claim_c8_latest_not_found
    (kvs akvs ckvs vkvs : List (String × Yaml)) (d : Yaml)
    (hreq : ∀ f ∈ requiredFieldList, (alookup kvs f).isSome = true)
    (hauth : alookup kvs "author" = some (Yaml.map akvs))
    (hname : (alookup akvs "name").isSome = true)
    (hcats : alookup kvs "categories" = some (Yaml.map ckvs))
    (hprim : (alookup ckvs "primary").isSome = true)
    (hver : alookup kvs "version" = some (Yaml.map vkvs))
    (hlatest : alookup vkvs "latest" = some (Yaml.str "2.0"))
    (hverss : alookup kvs "versions" = some (Yaml.map [("1.0", d)]))
    (hd : d.isMap = true) :
    (validateMetadata (some (Yaml.map kvs)) emptyReport).errors =
      ["Latest version 2.0 not found in versions"] := by
  have hcontains : ∀ k, (alookup kvs k).isSome = true →
      pyContainsStr (Yaml.map kvs) k = some true := by
    intro k hk
    simp [pyContainsStr, alookup_any, hk]
  have hfil : requiredFieldList.filter (fun f => !kvs.any (fun kv => kv.1 = f)) = [] := by
    rw [List.filter_eq_nil_iff]
    intro f hf
    simp [alookup_any, hreq f hf]
  have h1 : requiredFieldsStep (Yaml.map kvs) emptyReport = Except.ok emptyReport := by
    have h := mapFoldErr requiredFieldList kvs emptyReport
    rw [hfil] at h
    exact h
  have h2 : ∀ R, authorCheckStep (Yaml.map kvs) R = Except.ok R := by
    intro R
    have ha := hcontains "author" (by rw [hauth]; rfl)
    have hs : pySubscript (Yaml.map kvs) "author" = some (Yaml.map akvs) := by
      simp [pySubscript, hauth]
    have hn : pyContainsStr (Yaml.map akvs) "name" = some true := by
      simp [pyContainsStr, alookup_any, hname]
    simp [authorCheckStep, ha, hs, hn, Yaml.isMap]
  have h3 : ∀ R, categoriesCheckStep (Yaml.map kvs) R = Except.ok R := by
    intro R
    have ha := hcontains "categories" (by rw [hcats]; rfl)
    have hs : pySubscript (Yaml.map kvs) "categories" = some (Yaml.map ckvs) := by
      simp [pySubscript, hcats]
    have hn : pyContainsStr (Yaml.map ckvs) "primary" = some true := by
      simp [pyContainsStr, alookup_any, hprim]
    simp [categoriesCheckStep, ha, hs, hn]
  have hc4 := hcontains "versions" (by rw [hverss]; rfl)
  have hc5 : pySubscript (Yaml.map kvs) "versions" = some (Yaml.map [("1.0", d)]) := by
    simp [pySubscript, hverss]
  have h4 : versionCheckStep (Yaml.map kvs) emptyReport =
      Except.ok (addError emptyReport (latestNotFoundMsg (Yaml.str "2.0"))) := by
    have hc1 := hcontains "version" (by rw [hver]; rfl)
    have hc2 : pySubscript (Yaml.map kvs) "version" = some (Yaml.map vkvs) := by
      simp [pySubscript, hver]
    have hc3 : dictGet (Yaml.map vkvs) "latest" = some (Yaml.str "2.0") := by
      simp [dictGet, hlatest]
    have hbeq : (Yaml.str "1.0" == Yaml.str "2.0") = false := by decide
    have hc6 : pyContainsY (Yaml.map [("1.0", d)]) (Yaml.str "2.0") = some false := by
      simp [pyContainsY, pyHashable, hbeq]
    have htr : pyTruthy (Yaml.str "2.0") = true := by decide
    simp [versionCheckStep, hc1, hc2, hc3, hc4, hc5, hc6, htr]
  have h50 : versionsEntriesStep (Yaml.map kvs) emptyReport =
      Except.ok (versionEntryStep emptyReport ("1.0", d)) := by
    simp [versionsEntriesStep, hc4, hc5, yamlItems]
  obtain ⟨w5, h50v, h5e⟩ : ∃ w, versionsEntriesStep (Yaml.map kvs) emptyReport =
      Except.ok w ∧ w.errors = [] :=
    ⟨_, h50, (versionEntryStep_errors emptyReport ("1.0", d) hd).trans rfl⟩
  have h5v : ∀ R, versionsEntriesStep (Yaml.map kvs) R = Except.ok (R.append w5) := by
    intro R
    have h := versionsEntriesStep_appends (Yaml.map kvs) R
    rw [h50v] at h
    exact h
  obtain ⟨w6, h60v, h6e⟩ : ∃ w, recommendedStep (Yaml.map kvs) emptyReport =
      Except.ok w ∧ w.errors = [] :=
    ⟨_, mapFoldWarn recommendedFieldList kvs emptyReport, rfl⟩
  have h6v : ∀ R, recommendedStep (Yaml.map kvs) R = Except.ok (R.append w6) := by
    intro R
    have h := recommendedStep_appends (Yaml.map kvs) R
    rw [h60v] at h
    exact h
  have h70 : infoStep (Yaml.map kvs) emptyReport = Except.ok
      (addInfo (addInfo (addInfo emptyReport
        ("Template name: " ++ pyStr ((alookup kvs "name").getD Yaml.null)))
        ("Latest version: " ++ pyStr (Yaml.str "2.0")))
        ("Total versions: " ++ toString (1 : Nat))) := by
    have g1 : dictGet (Yaml.map kvs) "name" = some ((alookup kvs "name").getD Yaml.null) := rfl
    have g2 : (dictGetD (Yaml.map kvs) "version" (Yaml.map [])).bind
        (fun v => dictGet v "latest") = some (Yaml.str "2.0") := by
      simp [dictGetD, dictGet, hver, hlatest]
    have g3 : (dictGetD (Yaml.map kvs) "versions" (Yaml.map [])).bind pyLen = some 1 := by
      simp [dictGetD, hverss, pyLen]
    rw [infoStep, g1, g2, g3]
  obtain ⟨w7, h70v, h7e⟩ : ∃ w, infoStep (Yaml.map kvs) emptyReport =
      Except.ok w ∧ w.errors = [] :=
    ⟨_, h70, rfl⟩
  have h7v : ∀ R, infoStep (Yaml.map kvs) R = Except.ok (R.append w7) := by
    intro R
    have h := infoStep_appends (Yaml.map kvs) R
    rw [h70v] at h
    exact h
  have hlit : latestNotFoundMsg (Yaml.str "2.0") =
      "Latest version 2.0 not found in versions" := by decide
  rw [validateMetadata]
  rw [show metaBody (Yaml.map kvs) emptyReport =
      (requiredFieldsStep (Yaml.map kvs) emptyReport >>= fun r1 =>
       authorCheckStep (Yaml.map kvs) r1 >>= fun r2 =>
       categoriesCheckStep (Yaml.map kvs) r2 >>= fun r3 =>
       versionCheckStep (Yaml.map kvs) r3 >>= fun r4 =>
       versionsEntriesStep (Yaml.map kvs) r4 >>= fun r5 =>
       recommendedStep (Yaml.map kvs) r5 >>= fun r6 =>
       infoStep (Yaml.map kvs) r6) from rfl]
  rw [h1]
  rw [exceptBind_ok]
  rw [h2 emptyReport]
  rw [exceptBind_ok]
  rw [h3 emptyReport]
  rw [exceptBind_ok]
  rw [h4]
  rw [exceptBind_ok]
  rw [h5v _]
  rw [exceptBind_ok]
  rw [h6v _]
  rw [exceptBind_ok]
  rw [h7v _]
  simp [Report.append, addError, emptyReport, h5e, h6e, h7e, hlit]

/-- Witness for C8 at a concrete descriptor meeting every hypothesis. -/
theorem claim_c8_latest_not_found_witness :
    (validateMetadata (some c8doc) emptyReport).errors =
      ["Latest version 2.0 not found in versions"] :=
  claim_c8_latest_not_found
    [("name", Yaml.str "a"), ("displayName", Yaml.str "A"),
     ("description", Yaml.str "d"),
     ("author", Yaml.map [("name", Yaml.str "bob")]),
     ("categories", Yaml.map [("primary", Yaml.str "security")]),
     ("version", Yaml.map [("latest", Yaml.str "2.0")]),
     ("versions", Yaml.map
        [("1.0", Yaml.map
           [("date", Yaml.str "x"), ("policyLibrary", Yaml.str "y"),
            ("openshift", Yaml.str "z"), ("acm", Yaml.str "w"),
            ("changes", Yaml.str "c")])])]
    [("name", Yaml.str "bob")] [("primary", Yaml.str "security")]
    [("latest", Yaml.str "2.0")]
    (Yaml.map
       [("date", Yaml.str "x"), ("policyLibrary", Yaml.str "y"),
        ("openshift", Yaml.str "z"), ("acm", Yaml.str "w"),
        ("changes", Yaml.str "c")])
    (by decide) (by decide) (by decide) (by decide) (by decide)
    (by decide) (by decide) (by decide) (by decide)

/-!
## Single-addition monotonicity of the validator (C9)
-/

theorem alookup_append_ne (kvs : List (String × Yaml)) (f g : String) (v : Yaml)
    (h : g ≠ f) : alookup (kvs ++ [(f, v)]) g = alookup kvs g := by
  induction kvs with
  | nil => simp [alookup, Ne.symm h]
  | cons kv kvs ih =>
    by_cases hk : kv.1 = g
    · simp [alookup, hk]
    · simp [alookup, hk, ih]

theorem filter_map_erase (msg : String → String) (L : List String) (f : String)
    (p q : String → Bool) (hf : f ∈ L) (hnd : L.Nodup)
    (hinj : ∀ g ∈ L, msg g = msg f → g = f)
    (hq : ∀ g ∈ L, q g = (p g && !(decide (g = f))))
    (hpf : p f = true) :
    (L.filter q).map msg = ((L.filter p).map msg).erase (msg f) := by
  induction L with
  | nil => exact absurd hf (List.not_mem_nil f)
  | cons g L ih =>
    by_cases hg : g = f
    · subst hg
      have hqf : q g = false := by
        rw [hq g (List.mem_cons_self g L)]
        simp
      have hfnotL : g ∉ L := (List.nodup_cons.mp hnd).1
      have hfilL : L.filter q = L.filter p := by
        apply List.filter_congr
        intro a ha
        rw [hq a (List.mem_cons_of_mem g ha)]
        have hag : ¬ (a = g) := fun h => hfnotL (h ▸ ha)
        simp [hag]
      rw [List.filter_cons, hqf, if_neg (by decide : ¬ (false = true)), hfilL,
        List.filter_cons, hpf, if_pos rfl, List.map_cons, List.erase_cons_head]
    · have hfL : f ∈ L := by
        rcases List.mem_cons.mp hf with h | h
        · exact absurd h.symm hg
        · exact h
      have hqg : q g = p g := by
        rw [hq g (List.mem_cons_self g L)]
        simp [hg]
      have ihh := ih hfL (List.nodup_cons.mp hnd).2
        (fun a ha => hinj a (List.mem_cons_of_mem g ha))
        (fun a ha => hq a (List.mem_cons_of_mem g ha))
      rw [List.filter_cons, List.filter_cons, hqg]
      cases hpg : p g with
      | false =>
        rw [if_neg (by decide : ¬ (false = true)), if_neg (by decide : ¬ (false = true))]
        exact ihh
      | true =>
        have hne : (msg g == msg f) = false := by
          rw [beq_eq_false_iff_ne]
          intro h
          exact hg (hinj g (List.mem_cons_self g L) h)
        rw [if_pos rfl, if_pos rfl, List.map_cons, List.map_cons, List.erase_cons, hne,
          if_neg (by decide : ¬ (false = true)), ihh]

/-- The four validator checks concatenate independent findings, each a
function of its own part of the template directory alone. -/
theorem validateT_decomp (t : TemplateDir) :
    (validateT t).1 =
      (validateStructure t emptyReport).append
        ((metaDelta t.metadataFile).append
          ((versionsFindings t.versionsDir emptyReport).append
            (examplesFindings t.examplesDir emptyReport))) := by
  have h2 : (match t.metadataFile with
      | none => validateStructure t emptyReport
      | some doc => validateMetadata doc (validateStructure t emptyReport)) =
      (validateStructure t emptyReport).append (metaDelta t.metadataFile) := by
    cases hmf : t.metadataFile with
    | none =>
      rw [metaDelta, report_append_empty]
    | some doc =>
      rw [metaDelta]
      exact validateMetadata_appends doc _
  show examplesFindings t.examplesDir (versionsFindings t.versionsDir
    (match t.metadataFile with
     | none => validateStructure t emptyReport
     | some doc => validateMetadata doc (validateStructure t emptyReport))) = _
  rw [h2,
    versionsFindings_appends t.versionsDir
      ((validateStructure t emptyReport).append (metaDelta t.metadataFile)),
    examplesFindings_appends t.examplesDir
      (((validateStructure t emptyReport).append (metaDelta t.metadataFile)).append
        (versionsFindings t.versionsDir emptyReport)),
    report_append_assoc, report_append_assoc]

/-- C9 counterexample: starting from a descriptor missing only
`categories` (and with a latest-not-found error from the version check),
adding the required field `categories` with value `5` makes the
`"primary" in metadata["categories"]` test raise: the whole metadata
check aborts with the catch-all read error — introducing an error of an
unrelated check and deleting the version check's latest-not-found
error. -/
theorem claim_c9_counterexample :
    latestNotFoundMsg (Yaml.str "2.0") ∈
      (validateMetadata (some (Yaml.map c9kvs0)) emptyReport).errors ∧
    latestNotFoundMsg (Yaml.str "2.0") ∉
      (validateMetadata (some (Yaml.map (c9kvs0 ++ [("categories", Yaml.int 5)])))
        emptyReport).errors ∧
    readFailMsg ∉ (validateMetadata (some (Yaml.map c9kvs0)) emptyReport).errors ∧
    readFailMsg ∈
      (validateMetadata (some (Yaml.map (c9kvs0 ++ [("categories", Yaml.int 5)])))
        emptyReport).errors := by
  decide

/-- C9 (amended): a single addition changes only its own check's
findings when nothing raises.  Adding `README.md` removes exactly the
missing-README structure error and leaves every other error unchanged.
Adding a required field `f` (absent before) to a mapping descriptor
removes exactly the missing-`f` error from the required-field loop, and
leaves the author check unchanged when `f` is not `author`, the
categories check when `f` is not `categories`, the version check when
`f` is neither `version` nor `versions`, the per-version-entries check
when `f` is not `versions`, and the recommended-field loop always; but
a field value on which a later membership test raises voids this (see
the counterexample). -/
theorem claim_c9_single_addition_frame :
    (∀ t : TemplateDir, t.hasReadme = false →
       (validateT { t with hasReadme := true }).1.errors =
         ((validateT t).1.errors).erase "Missing required file: README.md") ∧
    (∀ (kvs : List (String × Yaml)) (f : String) (v : Yaml),
       f ∈ requiredFieldList → alookup kvs f = none →
       (∀ rep, requiredFieldsStep (Yaml.map (kvs ++ [(f, v)])) rep =
          Except.ok { rep with errors := rep.errors ++
            (((requiredFieldList.filter (fun g => !kvs.any (fun kv => kv.1 = g))).map
               requiredFieldMsg).erase (requiredFieldMsg f)) }) ∧
       (f ≠ "author" → ∀ rep, authorCheckStep (Yaml.map (kvs ++ [(f, v)])) rep =
          authorCheckStep (Yaml.map kvs) rep) ∧
       (f ≠ "categories" → ∀ rep, categoriesCheckStep (Yaml.map (kvs ++ [(f, v)])) rep =
          categoriesCheckStep (Yaml.map kvs) rep) ∧
       (f ≠ "version" → f ≠ "versions" →
          ∀ rep, versionCheckStep (Yaml.map (kvs ++ [(f, v)])) rep =
            versionCheckStep (Yaml.map kvs) rep) ∧
       (f ≠ "versions" → ∀ rep, versionsEntriesStep (Yaml.map (kvs ++ [(f, v)])) rep =
          versionsEntriesStep (Yaml.map kvs) rep) ∧
       (∀ rep, recommendedStep (Yaml.map (kvs ++ [(f, v)])) rep =
          recommendedStep (Yaml.map kvs) rep)) := by
  constructor
  · intro t hR
    have hdec : ∀ s : TemplateDir, (validateT s).1.errors =
        structErrors s ++ ((metaDelta s.metadataFile).errors ++
          ((versionsFindings s.versionsDir emptyReport).errors ++
            (examplesFindings s.examplesDir emptyReport).errors)) := by
      intro s
      rw [validateT_decomp s]
      simp [Report.append, validateStructure, emptyReport]
    rw [hdec, hdec]
    rw [show ({ t with hasReadme := true } : TemplateDir).metadataFile = t.metadataFile
      from rfl]
    rw [show ({ t with hasReadme := true } : TemplateDir).versionsDir = t.versionsDir
      from rfl]
    rw [show ({ t with hasReadme := true } : TemplateDir).examplesDir = t.examplesDir
      from rfl]
    have hs1 : structErrors { t with hasReadme := true } =
        (if t.metadataFile.isSome then [] else ["Missing required file: metadata.yaml"]) ++
        ((if t.versionsDir.isSome then [] else ["Missing required directory: versions"]) ++
          (if t.examplesDir.isSome then [] else ["Missing required directory: examples"])) := by
      simp [structErrors]
    have hs2 : structErrors t =
        (if t.metadataFile.isSome then [] else ["Missing required file: metadata.yaml"]) ++
        ("Missing required file: README.md" ::
          ((if t.versionsDir.isSome then [] else ["Missing required directory: versions"]) ++
            (if t.examplesDir.isSome then [] else ["Missing required directory: examples"]))) := by
      simp [structErrors, hR]
    rw [hs1, hs2]
    have hA : "Missing required file: README.md" ∉
        (if t.metadataFile.isSome then ([] : List String)
         else ["Missing required file: metadata.yaml"]) := by
      cases t.metadataFile.isSome <;> decide
    simp only [List.append_assoc, List.cons_append]
    rw [List.erase_append_right _ hA, List.erase_cons_head]
  · intro kvs f v hf habs
    have hf7 : f = "name" ∨ f = "displayName" ∨ f = "description" ∨ f = "author" ∨
        f = "categories" ∨ f = "version" ∨ f = "versions" := by
      simpa [requiredFieldList] using hf
    have hcong : ∀ g : String, f ≠ g →
        pyContainsStr (Yaml.map (kvs ++ [(f, v)])) g = pyContainsStr (Yaml.map kvs) g := by
      intro g hne
      show some ((kvs ++ [(f, v)]).any (fun kv => kv.1 = g)) =
        some (kvs.any (fun kv => kv.1 = g))
      simp [List.any_append, hne]
    have hsub : ∀ g : String, f ≠ g →
        pySubscript (Yaml.map (kvs ++ [(f, v)])) g = pySubscript (Yaml.map kvs) g := by
      intro g hne
      show alookup (kvs ++ [(f, v)]) g = alookup kvs g
      exact alookup_append_ne kvs f g v (fun h => hne h.symm)
    refine ⟨?_, ?_, ?_, ?_, ?_, ?_⟩
    · intro rep
      have h := mapFoldErr requiredFieldList (kvs ++ [(f, v)]) rep
      have hkey : (requiredFieldList.filter
            (fun g => !(kvs ++ [(f, v)]).any (fun kv => kv.1 = g))).map requiredFieldMsg =
          ((requiredFieldList.filter (fun g => !kvs.any (fun kv => kv.1 = g))).map
            requiredFieldMsg).erase (requiredFieldMsg f) := by
        apply filter_map_erase requiredFieldMsg requiredFieldList f
          (fun g => !kvs.any (fun kv => kv.1 = g))
          (fun g => !(kvs ++ [(f, v)]).any (fun kv => kv.1 = g)) hf (by decide)
        · rcases hf7 with h|h|h|h|h|h|h <;> subst h <;> decide
        · intro g hg
          show (!(kvs ++ [(f, v)]).any (fun kv => kv.1 = g)) =
            (!kvs.any (fun kv => kv.1 = g) && !(decide (g = f)))
          by_cases hgf : g = f
          · subst hgf
            simp [List.any_append]
          · simp [List.any_append, hgf, Ne.symm hgf]
        · show (!kvs.any (fun kv => kv.1 = f)) = true
          rw [alookup_any, habs]
          rfl
      rw [hkey] at h
      exact h
    · intro hfa rep
      simp only [authorCheckStep, hcong "author" hfa, hsub "author" hfa]
    · intro hfc rep
      simp only [categoriesCheckStep, hcong "categories" hfc, hsub "categories" hfc]
    · intro hfv hfvs rep
      simp only [versionCheckStep, hcong "version" hfv, hsub "version" hfv,
        hcong "versions" hfvs, hsub "versions" hfvs]
    · intro hfvs rep
      simp only [versionsEntriesStep, hcong "versions" hfvs, hsub "versions" hfvs]
    · intro rep
      have ht : f ≠ "tags" := by rcases hf7 with h|h|h|h|h|h|h <;> subst h <;> decide
      have hfe : f ≠ "features" := by rcases hf7 with h|h|h|h|h|h|h <;> subst h <;> decide
      have hrq : f ≠ "requirements" := by
        rcases hf7 with h|h|h|h|h|h|h <;> subst h <;> decide
      have hcx : f ≠ "complexity" := by rcases hf7 with h|h|h|h|h|h|h <;> subst h <;> decide
      simp only [recommendedStep, recommendedFieldList, List.foldlM_cons, List.foldlM_nil,
        hcong "tags" ht, hcong "features" hfe, hcong "requirements" hrq,
        hcong "complexity" hcx]

/-- Witness for the amended C9: the README part at a bare template
directory, and the field parts at a descriptor missing only
`displayName`, adding `displayName: "D"`. -/
theorem claim_c9_single_addition_frame_witness :
    ((validateT { metadataFile := none, hasReadme := true, versionsDir := none, examplesDir := none }).1.errors =
      ((validateT { metadataFile := none, hasReadme := false, versionsDir := none, examplesDir := none }).1.errors).erase "Missing required file: README.md") ∧
    (requiredFieldsStep (Yaml.map (c9kvs ++ [("displayName", Yaml.str "D")])) emptyReport =
      Except.ok { emptyReport with errors := emptyReport.errors ++
        (((requiredFieldList.filter (fun g => !c9kvs.any (fun kv => kv.1 = g))).map
          requiredFieldMsg).erase (requiredFieldMsg "displayName")) }) ∧
    (authorCheckStep (Yaml.map (c9kvs ++ [("displayName", Yaml.str "D")])) emptyReport =
      authorCheckStep (Yaml.map c9kvs) emptyReport) ∧
    (versionCheckStep (Yaml.map (c9kvs ++ [("displayName", Yaml.str "D")])) emptyReport =
      versionCheckStep (Yaml.map c9kvs) emptyReport) :=
  ⟨claim_c9_single_addition_frame.1 { metadataFile := none, hasReadme := false, versionsDir := none, examplesDir := none } rfl,
   (claim_c9_single_addition_frame.2 c9kvs "displayName" (Yaml.str "D")
      (by decide) (by decide)).1 emptyReport,
   (claim_c9_single_addition_frame.2 c9kvs "displayName" (Yaml.str "D")
      (by decide) (by decide)).2.1 (by decide) emptyReport,
   (claim_c9_single_addition_frame.2 c9kvs "displayName" (Yaml.str "D")
      (by decide) (by decide)).2.2.2.1 (by decide) (by decide) emptyReport⟩
